import Mathlib

/-!
Verification development for the Task-Management-system backend
(insight generation and scheduling pipeline).

Shallow embedding conventions, used throughout:
- Python strings that are split into words are modelled as `List Char`
  (abbreviated `Str`); entity identifiers, status values and other strings
  that are only ever compared for equality are modelled as Lean `String`.
- Timestamps are integers counting minutes ; a Python
  `datetime` difference `d` has `d.days = Int.fdiv d 1440`, matching the
  floor semantics of `timedelta.days`.
- A Python value obtained with `dict.get` that may be absent is an
  `Option`; id-valued fields normalised through `_normalize_str`
  (which maps `None` to the empty string) are plain `String`s where the
  empty string stands for a missing id, since real ids are non-empty.
- CamelCase legacy aliases of snake_case document keys (for example
  `projectId` next to `project_id`) are collapsed into the single
  canonical field, because every source site coalesces the two.
-/

namespace TMS

/-! ## Python string primitives

`str.split()` with no separator splits on runs of whitespace and drops
empty fragments.  `pySplitSegs` produces the whitespace-delimited
segments (possibly empty ones at boundaries), `pySplit` drops the empty
segments, exactly like the Python builtin. -/

abbrev Str := List Char

/-- Whitespace characters recognised by Python `str.split()` (ASCII range;
the source never feeds non-ASCII whitespace). -/
def isPySpace (c : Char) : Bool :=
  c == ' ' || c == '\t' || c == '\n' || c == '\r' || c == '\x0b' || c == '\x0c'

/-- Whitespace-delimited segments of a string, including empty segments
produced by leading, trailing or repeated whitespace. -/
def pySplitSegs (s : Str) : List Str :=
  s.foldr
    (fun c acc =>
      if isPySpace c then [] :: acc
      else
        match acc with
        | [] => [[c]]
        | w :: ws => (c :: w) :: ws)
    []

/-- Embedding of Python `text.split()` (no separator argument). -/
def pySplit (s : Str) : List Str :=
  (pySplitSegs s).filter (fun w => !w.isEmpty)

/-- Embedding of `_word_count` (src/backend/app/services/ai.py:354):
`len([t for t in text.split() if t])`; the filter is redundant because
`split()` never yields empty fragments, so this is the number of
whitespace-delimited words. -/
def word_count (s : Str) : Nat :=
  (pySplit s).length

/-- Embedding of Python `" ".join(words)`. -/
def joinWords : List Str → Str
  | [] => []
  | [w] => w
  | w :: ws => w ++ ' ' :: joinWords ws

/-- Embedding of `_truncate_words` (src/backend/app/services/ai.py:360):
return the text unchanged when it has at most `max_words` words,
otherwise the space-join of its first `max_words` words. -/
def truncate_words (text : Str) (max_words : Nat) : Str :=
  if text.isEmpty then []
  else
    let words := pySplit text
    if words.length ≤ max_words then text
    else joinWords (words.take max_words)

/-! Lemmas about `pySplit`. -/

theorem pySplitSegs_nil : pySplitSegs [] = [] := rfl

theorem pySplitSegs_cons (c : Char) (s : Str) :
    pySplitSegs (c :: s) =
      if isPySpace c then [] :: pySplitSegs s
      else
        match pySplitSegs s with
        | [] => [[c]]
        | w :: ws => (c :: w) :: ws := rfl

theorem mem_pySplitSegs_no_space (s : Str) :
    ∀ w ∈ pySplitSegs s, ∀ c ∈ w, ¬ (isPySpace c = true) := by
  induction s with
  | nil => intro w hw; simp [pySplitSegs] at hw
  | cons c rest ih =>
    intro w hw
    rw [pySplitSegs_cons] at hw
    by_cases hc : isPySpace c = true
    · rw [if_pos hc] at hw
      rcases List.mem_cons.mp hw with hw | hw
      · subst hw; intro x hx; simp at hx
      · exact ih w hw
    · rw [if_neg hc] at hw
      cases hsegs : pySplitSegs rest with
      | nil =>
        rw [hsegs] at hw
        simp only [List.mem_singleton] at hw
        subst hw
        intro x hx
        simp only [List.mem_singleton] at hx
        subst hx
        exact hc
      | cons w0 ws =>
        rw [hsegs] at hw
        rcases List.mem_cons.mp hw with hw | hw
        · subst hw
          intro x hx
          rcases List.mem_cons.mp hx with hx | hx
          · subst hx; exact hc
          · exact ih w0 (by rw [hsegs]; exact List.mem_cons_self _ _) x hx
        · exact ih w (by rw [hsegs]; exact List.mem_cons_of_mem _ hw)

theorem mem_pySplit_ne_nil {s : Str} {w : Str} (hw : w ∈ pySplit s) :
    w ≠ [] := by
  have := List.of_mem_filter hw
  simpa [List.isEmpty_iff] using this

theorem mem_pySplit_no_space {s : Str} {w : Str} (hw : w ∈ pySplit s) :
    ∀ c ∈ w, ¬ (isPySpace c = true) :=
  mem_pySplitSegs_no_space s w (List.mem_of_mem_filter hw)

/-- Prepending a non-empty whitespace-free word (plus following text)
onto a string merges with the leading segment. -/
theorem pySplitSegs_word_append (w : Str) (hne : w ≠ [])
    (hsp : ∀ c ∈ w, ¬ (isPySpace c = true)) (s : Str) :
    pySplitSegs (w ++ s) =
      match pySplitSegs s with
      | [] => [w]
      | seg :: rest => (w ++ seg) :: rest := by
  induction w with
  | nil => exact absurd rfl hne
  | cons c w' ih =>
    have hc : ¬ (isPySpace c = true) := hsp c (List.mem_cons_self _ _)
    by_cases hw' : w' = []
    · subst hw'
      rw [List.cons_append, List.nil_append, pySplitSegs_cons, if_neg hc]
      cases hsegs : pySplitSegs s with
      | nil => rfl
      | cons seg rest => rfl
    · have ih' := ih hw' (fun x hx => hsp x (List.mem_cons_of_mem _ hx))
      rw [List.cons_append, pySplitSegs_cons, if_neg hc, ih']
      cases hsegs : pySplitSegs s with
      | nil =>
        cases w' with
        | nil => exact absurd rfl hw'
        | cons a l => rfl
      | cons seg rest =>
        cases w' with
        | nil => exact absurd rfl hw'
        | cons a l => rfl

theorem pySplitSegs_space_cons (s : Str) :
    pySplitSegs (' ' :: s) = [] :: pySplitSegs s := by
  rw [pySplitSegs_cons, if_pos (by decide)]

/-- Splitting the space-join of non-empty whitespace-free words recovers
exactly those words. -/
theorem pySplit_joinWords (ws : List Str)
    (hne : ∀ w ∈ ws, w ≠ [])
    (hsp : ∀ w ∈ ws, ∀ c ∈ w, ¬ (isPySpace c = true)) :
    pySplit (joinWords ws) = ws := by
  induction ws with
  | nil => rfl
  | cons w rest ih =>
    cases rest with
    | nil =>
      have hw := hne w (List.mem_cons_self _ _)
      have hs := hsp w (List.mem_cons_self _ _)
      show pySplit (joinWords [w]) = [w]
      have : joinWords [w] = w := rfl
      rw [this]
      unfold pySplit
      rw [show w = w ++ ([] : Str) by simp, pySplitSegs_word_append w hw hs []]
      simp [pySplitSegs]
      intro h
      exact hw (by simpa [List.isEmpty_iff] using h)
    | cons w2 rest2 =>
      have hw := hne w (List.mem_cons_self _ _)
      have hs := hsp w (List.mem_cons_self _ _)
      have ih' := ih (fun x hx => hne x (List.mem_cons_of_mem _ hx))
        (fun x hx => hsp x (List.mem_cons_of_mem _ hx))
      show pySplit (w ++ ' ' :: joinWords (w2 :: rest2)) = w :: w2 :: rest2
      unfold pySplit
      rw [pySplitSegs_word_append w hw hs (' ' :: joinWords (w2 :: rest2)),
        pySplitSegs_space_cons]
      simp only [List.append_nil]
      have : pySplit (joinWords (w2 :: rest2)) = w2 :: rest2 := ih'
      unfold pySplit at this
      simp only [List.filter_cons]
      have hwne : (!w.isEmpty) = true := by
        cases w with
        | nil => exact absurd rfl hw
        | cons a l => rfl
      rw [if_pos hwne, this]

theorem word_count_truncate_le (text : Str) (n : Nat) :
    word_count (truncate_words text n) ≤ n ∨ word_count text ≤ n := by
  unfold truncate_words
  by_cases he : text.isEmpty
  · left; rw [if_pos he]; simp [word_count, pySplit, pySplitSegs]
  · rw [if_neg he]
    by_cases hl : (pySplit text).length ≤ n
    · right; exact hl
    · left
      rw [if_neg hl]
      have hset : pySplit (joinWords ((pySplit text).take n)) = (pySplit text).take n := by
        apply pySplit_joinWords
        · intro w hw
          exact mem_pySplit_ne_nil (List.mem_of_mem_take hw)
        · intro w hw
          exact mem_pySplit_no_space (List.mem_of_mem_take hw)
      unfold word_count
      rw [hset, List.length_take]
      exact min_le_left _ _

theorem truncate_words_eq_of_le {text : Str} {n : Nat}
    (h : word_count text ≤ n) : truncate_words text n = text := by
  unfold truncate_words
  by_cases he : text.isEmpty
  · rw [if_pos he]
    exact (List.isEmpty_iff.mp he).symm
  · rw [if_neg he]
    show (if (pySplit text).length ≤ n then text
          else joinWords (List.take n (pySplit text))) = text
    exact if_pos h

theorem word_count_truncate_words_le (text : Str) (n : Nat) :
    word_count (truncate_words text n) ≤ n := by
  rcases word_count_truncate_le text n with h | h
  · exact h
  · rw [truncate_words_eq_of_le h]; exact h

/-- C10: word-boundary truncation yields at most `n` words, returns the
text unchanged when it already has at most `n` words, and is idempotent
at the same bound. -/
theorem c10_truncate_words_spec (text : Str) (n : Nat) :
    word_count (truncate_words text n) ≤ n ∧
    (word_count text ≤ n → truncate_words text n = text) ∧
    truncate_words (truncate_words text n) n = truncate_words text n :=
  ⟨word_count_truncate_words_le text n,
   fun h => truncate_words_eq_of_le h,
   truncate_words_eq_of_le (word_count_truncate_words_le text n)⟩

/-- C10 witness: the three conjuncts evaluated at concrete inputs, with
the conditional conjunct discharged at a text of two words. -/
theorem c10_truncate_words_spec_witness :
    word_count (truncate_words ("alpha beta gamma".toList) 2) ≤ 2 ∧
    truncate_words ("alpha beta".toList) 2 = "alpha beta".toList ∧
    truncate_words (truncate_words ("alpha beta gamma".toList) 2) 2 =
      truncate_words ("alpha beta gamma".toList) 2 :=
  ⟨(c10_truncate_words_spec ("alpha beta gamma".toList) 2).1,
   (c10_truncate_words_spec ("alpha beta".toList) 2).2.1 (by decide),
   (c10_truncate_words_spec ("alpha beta gamma".toList) 2).2.2⟩

/-! ## Time and settings

Timestamps are minutes as integers.  `Settings` mirrors
src/backend/app/config.py with its defaults. -/

/-- Configuration values from src/backend/app/config.py (lines 40-46). -/
structure Settings where
  ai_project_interval_hours : Int
  ai_admin_interval_hours : Int
  ai_scheduler_poll_seconds : Int
  ai_project_batch_size : Nat
  ai_project_task_limit : Nat
  ai_insights_jitter_minutes : Int

/-- The default settings (config.py defaults). -/
def settings : Settings :=
  { ai_project_interval_hours := 48
    ai_admin_interval_hours := 72
    ai_scheduler_poll_seconds := 600
    ai_project_batch_size := 3
    ai_project_task_limit := 40
    ai_insights_jitter_minutes := 360 }

/-- Embedding of `_next_due_at` (src/backend/app/services/ai_scheduler.py:21):
`base_time + timedelta(hours=interval_hours) + jitter`, where the jitter
is drawn as `random.randint(0, max(0, jitter_minutes))` (and is zero when
the configured bound is zero).  The draw is passed in explicitly. -/
def next_due_at (base_time : Int) (interval_hours : Int) (jitter_draw : Int) : Int :=
  base_time + interval_hours * 60 + jitter_draw

/-- The set of values the jitter draw can take for a configured bound
(`random.randint(0, max(0, bound))` is inclusive on both ends; when the
bound is zero the code adds an empty timedelta, which the same range
describes). -/
def jitter_in_range (S : Settings) (jitter_draw : Int) : Prop :=
  0 ≤ jitter_draw ∧ jitter_draw ≤ max 0 S.ai_insights_jitter_minutes

/-! ## Entity documents

Field-by-field models of the Mongo documents the pipeline reads.  All ids
are strings normalised with `_normalize_str` (missing id = empty string);
timestamps are pre-parsed `Option Int` values (`none` covers both a
missing key and an unparseable value, which every source site treats
alike). -/

/-- An access grant (`user.access`), as read by the scope filter. -/
structure AccessGrant where
  group_ids : List String
  project_ids : List String
deriving DecidableEq

/-- A user document.  `id` is the normalised `_id` (the source coalesces
`_id` and `id`). -/
structure UserDoc where
  id : String
  name : String
  access : AccessGrant
deriving DecidableEq

/-- A group document. -/
structure GroupDoc where
  id : String
  owner_id : String
  name : String
deriving DecidableEq

/-- A project document.  `group_id`, `access_user_ids`, `collaborator_ids`
collapse the snake_case/camelCase alias pairs that the source coalesces. -/
structure ProjectDoc where
  id : String
  group_id : String
  owner_id : String
  access_user_ids : List String
  collaborator_ids : List String
  status : String
  name : String
  updated_at : Option Int
  created_at : Option Int
deriving DecidableEq

/-- A task document. -/
structure TaskDoc where
  id : String
  project_id : String
  status : String
  due_date : Option Int
  assigned_by_id : String
  assignee_ids : List String
  collaborator_ids : List String
deriving DecidableEq

/-- A comment document (`task_id`/`taskId` and `project_id`/`projectId`
collapsed). -/
structure CommentDoc where
  id : String
  task_id : String
  project_id : String
deriving DecidableEq

/-! ## Task health classification (`_task_health`) -/

/-- Whole days of a minute difference, matching Python
`timedelta.days` floor semantics. -/
def timedelta_days (d : Int) : Int := Int.fdiv d 1440

/-- Embedding of `_task_health` (src/backend/app/services/ai.py:483).
Returns the pair (health, reason).  The `or "unknown"` default applies to
a falsy status; the due date is `_parse_datetime(task.get("due_date"))`. -/
def task_health (t : TaskDoc) (now : Int) : String × String :=
  let status := if t.status == "" then "unknown" else t.status
  let overdue : Bool :=
    t.due_date.any (fun due => decide (due < now) && status != "completed")
  if status == "completed" then ("on_track", "completed")
  else if status == "hold" || status == "blocked" then ("at_risk", "on_hold")
  else if overdue then ("at_risk", "overdue")
  else if t.due_date.any (fun due => decide (timedelta_days (due - now) ≤ 2)) &&
          (status == "not_started" || status == "in_progress") then
    ("needs_attention", "due_soon")
  else ("on_track", "stable")

/-- The classification exactly as the claim words it, with "a due date
exists within 2 days" read literally as `due ≤ now + 2 days`. -/
def claim_task_health (t : TaskDoc) (now : Int) : String × String :=
  if t.status == "completed" then ("on_track", "completed")
  else if t.status == "hold" || t.status == "blocked" then ("at_risk", "on_hold")
  else if t.due_date.any (fun due => decide (due < now)) then ("at_risk", "overdue")
  else if t.due_date.any (fun due => decide (due ≤ now + 2 * 1440)) &&
          (t.status == "not_started" || t.status == "in_progress") then
    ("needs_attention", "due_soon")
  else ("on_track", "stable")

/-- The claim amended at its single false point: the due-soon window is
the Python floor `(due - now).days ≤ 2`, which extends to just under
three days ahead, not two days. -/
def claim_task_health_amended (t : TaskDoc) (now : Int) : String × String :=
  if t.status == "completed" then ("on_track", "completed")
  else if t.status == "hold" || t.status == "blocked" then ("at_risk", "on_hold")
  else if t.due_date.any (fun due => decide (due < now)) then ("at_risk", "overdue")
  else if t.due_date.any (fun due => decide (timedelta_days (due - now) ≤ 2)) &&
          (t.status == "not_started" || t.status == "in_progress") then
    ("needs_attention", "due_soon")
  else ("on_track", "stable")

/-- A task used as the C8 boundary counterexample: in progress, due two
days and one hour from the snapshot time. -/
def c8_boundary_task : TaskDoc :=
  { id := "t1", project_id := "p1", status := "in_progress",
    due_date := some 2940, assigned_by_id := "",
    assignee_ids := [], collaborator_ids := [] }

/-- C8 counterexample: for a task due two days and one hour ahead
(status in_progress), the code classifies needs_attention/due_soon while
the claim reading of "due date exists within 2 days" gives
on_track/stable, so the claim as stated is false. -/
theorem c8_task_health_counterexample :
    task_health c8_boundary_task 0 = ("needs_attention", "due_soon") ∧
    claim_task_health c8_boundary_task 0 = ("on_track", "stable") := by
  constructor <;> rfl

/-- C8 (amended): the health classification follows exactly the claimed
precedence order, with the due-soon window amended from "due within 2
days" to the Python floor semantics `(due - now).days ≤ 2` (just under
three days ahead). -/
theorem c8_task_health_amended (t : TaskDoc) (now : Int) :
    task_health t now = claim_task_health_amended t now := by
  unfold task_health claim_task_health_amended
  by_cases hE : t.status = ""
  · cases hdue : t.due_date <;>
      simp [hE, Option.any] <;> split_ifs <;> simp_all
  · cases hdue : t.due_date <;>
      simp [hE, Option.any] <;> split_ifs <;> simp_all <;> omega

/-! ## Insight records and the store-update step of a generation attempt

`generate_project_insight` / `generate_admin_insight`
(src/backend/app/services/ai_scheduler.py:116 and :226) build a payload
from the generation result and the previously stored record, then upsert
it.  The functions below compute the record as stored after the upsert
(the `$setOnInsert` key only applies when no document existed). -/

structure Citation where
  label : String
  value : String
deriving DecidableEq

structure TaskInsightItem where
  task_id : Option String
  task_title : Str
  status : Option String
  health : Option String
  insight : Str
  recommendation : Str
deriving DecidableEq

/-- An entry of `group_summaries` / `project_summaries`; `entity_id`
models the `group_id` / `project_id` key. -/
structure SummaryItem where
  entity_id : String
  name : String
  insight : Str
deriving DecidableEq

/-- The stored project-scope InsightRecord document.  `Option` fields may
be absent from the document (`dict.get` returns `None`). -/
structure ProjectInsightRecord where
  scope : String
  project_id : String
  summary : Option Str
  recommendation : Option Str
  goals_summary : Option Str
  citations : List Citation
  task_insights : List TaskInsightItem
  generated_at : Option Int
  generated_by : Option String
  last_attempt_at : Option Int
  next_due_at : Option Int
  source : Option String
  ai_error : Option String
  word_count : Option Nat
  created_at : Option Int
  updated_at : Option Int
deriving DecidableEq

/-- The result dict returned by `generate_project_ai_insights`: all
content fields are always populated, `source` is `ai` or `fallback`. -/
structure ProjectGenResult where
  summary : Str
  recommendation : Str
  goals_summary : Str
  citations : List Citation
  task_insights : List TaskInsightItem
  source : String
  ai_error : Option String
deriving DecidableEq

/-- The stored admin-scope InsightRecord document. -/
structure AdminInsightRecord where
  scope : String
  analysis : Option Str
  recommendations : Option Str
  focus_area : Option Str
  team_balance : Option Str
  quick_win : Option Str
  group_summaries : List SummaryItem
  project_summaries : List SummaryItem
  generated_at : Option Int
  generated_by : Option String
  last_attempt_at : Option Int
  next_due_at : Option Int
  source : Option String
  ai_error : Option String
  word_count : Option Nat
  created_at : Option Int
  updated_at : Option Int
deriving DecidableEq

/-- The result dict returned by `generate_admin_ai_insights`. -/
structure AdminGenResult where
  analysis : Str
  recommendations : Str
  focus_area : Str
  team_balance : Str
  quick_win : Str
  group_summaries : List SummaryItem
  project_summaries : List SummaryItem
  source : String
  ai_error : Option String
deriving DecidableEq

/-- The record stored by `generate_project_insight`
(src/backend/app/services/ai_scheduler.py:171-223) once the project is
known to exist: the cached-holdover payload when a fallback result meets
a stored ai/ai_cached record without forced refresh, otherwise the full
new payload.  `jitter_draw` is the jitter drawn inside `_next_due_at`. -/
def apply_project_generation (S : Settings) (existing : Option ProjectInsightRecord)
    (result : ProjectGenResult) (project_id triggered_by : String)
    (force_refresh : Bool) (now : Int) (jitter_draw : Int) : ProjectInsightRecord :=
  let next_due := next_due_at now S.ai_project_interval_hours jitter_draw
  match existing with
  | some e =>
    if result.source == "fallback" &&
        (e.source == some "ai" || e.source == some "ai_cached") &&
        !force_refresh then
      { scope := "project", project_id := project_id,
        summary := e.summary, recommendation := e.recommendation,
        goals_summary := e.goals_summary,
        citations := e.citations, task_insights := e.task_insights,
        generated_at := e.generated_at, generated_by := e.generated_by,
        last_attempt_at := some now, next_due_at := some next_due,
        source := some "ai_cached", ai_error := result.ai_error,
        word_count := e.word_count, created_at := e.created_at,
        updated_at := some now }
    else
      { scope := "project", project_id := project_id,
        summary := some result.summary, recommendation := some result.recommendation,
        goals_summary := some result.goals_summary,
        citations := result.citations, task_insights := result.task_insights,
        generated_at := some now, generated_by := some triggered_by,
        last_attempt_at := e.last_attempt_at, next_due_at := some next_due,
        source := some result.source, ai_error := result.ai_error,
        word_count := some (word_count result.summary),
        created_at := e.created_at, updated_at := some now }
  | none =>
      { scope := "project", project_id := project_id,
        summary := some result.summary, recommendation := some result.recommendation,
        goals_summary := some result.goals_summary,
        citations := result.citations, task_insights := result.task_insights,
        generated_at := some now, generated_by := some triggered_by,
        last_attempt_at := none, next_due_at := some next_due,
        source := some result.source, ai_error := result.ai_error,
        word_count := some (word_count result.summary),
        created_at := some now, updated_at := some now }

/-- The record stored by `generate_admin_insight`
(src/backend/app/services/ai_scheduler.py:249-305). -/
def apply_admin_generation (S : Settings) (existing : Option AdminInsightRecord)
    (result : AdminGenResult) (triggered_by : String)
    (force_refresh : Bool) (now : Int) (jitter_draw : Int) : AdminInsightRecord :=
  let next_due := next_due_at now S.ai_admin_interval_hours jitter_draw
  match existing with
  | some e =>
    if result.source == "fallback" &&
        (e.source == some "ai" || e.source == some "ai_cached") &&
        !force_refresh then
      { scope := "admin",
        analysis := e.analysis, recommendations := e.recommendations,
        focus_area := e.focus_area, team_balance := e.team_balance,
        quick_win := e.quick_win,
        group_summaries := e.group_summaries,
        project_summaries := e.project_summaries,
        generated_at := e.generated_at, generated_by := e.generated_by,
        last_attempt_at := some now, next_due_at := some next_due,
        source := some "ai_cached", ai_error := result.ai_error,
        word_count := e.word_count, created_at := e.created_at,
        updated_at := some now }
    else
      { scope := "admin",
        analysis := some result.analysis, recommendations := some result.recommendations,
        focus_area := some result.focus_area, team_balance := some result.team_balance,
        quick_win := some result.quick_win,
        group_summaries := result.group_summaries,
        project_summaries := result.project_summaries,
        generated_at := some now, generated_by := some triggered_by,
        last_attempt_at := e.last_attempt_at, next_due_at := some next_due,
        source := some result.source, ai_error := result.ai_error,
        word_count := some (word_count result.recommendations),
        created_at := e.created_at, updated_at := some now }
  | none =>
      { scope := "admin",
        analysis := some result.analysis, recommendations := some result.recommendations,
        focus_area := some result.focus_area, team_balance := some result.team_balance,
        quick_win := some result.quick_win,
        group_summaries := result.group_summaries,
        project_summaries := result.project_summaries,
        generated_at := some now, generated_by := some triggered_by,
        last_attempt_at := none, next_due_at := some next_due,
        source := some result.source, ai_error := result.ai_error,
        word_count := some (word_count result.recommendations),
        created_at := some now, updated_at := some now }

/-- The C1 property, stated over both scopes: under a fallback result
against a stored ai/ai_cached record, a non-forced attempt holds the
previous content and generation metadata over (marking the record
ai_cached and advancing only the attempt metadata), while a forced
attempt replaces the content with the fallback result. -/
def c1_holdover_property (S : Settings) (e : ProjectInsightRecord)
    (r : ProjectGenResult) (pid trig : String) (now jd : Int)
    (ea : AdminInsightRecord) (ra : AdminGenResult) (triga : String)
    (nowa jda : Int) : Prop :=
  (let out := apply_project_generation S (some e) r pid trig false now jd
   out.summary = e.summary ∧ out.recommendation = e.recommendation ∧
   out.goals_summary = e.goals_summary ∧ out.citations = e.citations ∧
   out.task_insights = e.task_insights ∧
   out.generated_at = e.generated_at ∧ out.generated_by = e.generated_by ∧
   out.source = some "ai_cached" ∧
   out.last_attempt_at = some now ∧
   out.next_due_at = some (next_due_at now S.ai_project_interval_hours jd) ∧
   out.ai_error = r.ai_error ∧ out.updated_at = some now ∧
   out.word_count = e.word_count ∧ out.created_at = e.created_at) ∧
  (let outF := apply_project_generation S (some e) r pid trig true now jd
   outF.summary = some r.summary ∧ outF.recommendation = some r.recommendation ∧
   outF.goals_summary = some r.goals_summary ∧ outF.citations = r.citations ∧
   outF.task_insights = r.task_insights ∧ outF.source = some r.source ∧
   outF.generated_at = some now ∧ outF.generated_by = some trig) ∧
  (let outA := apply_admin_generation S (some ea) ra triga false nowa jda
   outA.analysis = ea.analysis ∧ outA.recommendations = ea.recommendations ∧
   outA.focus_area = ea.focus_area ∧ outA.team_balance = ea.team_balance ∧
   outA.quick_win = ea.quick_win ∧
   outA.group_summaries = ea.group_summaries ∧
   outA.project_summaries = ea.project_summaries ∧
   outA.generated_at = ea.generated_at ∧ outA.generated_by = ea.generated_by ∧
   outA.source = some "ai_cached" ∧
   outA.last_attempt_at = some nowa ∧
   outA.next_due_at = some (next_due_at nowa S.ai_admin_interval_hours jda) ∧
   outA.ai_error = ra.ai_error ∧ outA.updated_at = some nowa ∧
   outA.word_count = ea.word_count ∧ outA.created_at = ea.created_at) ∧
  (let outAF := apply_admin_generation S (some ea) ra triga true nowa jda
   outAF.analysis = some ra.analysis ∧
   outAF.recommendations = some ra.recommendations ∧
   outAF.focus_area = some ra.focus_area ∧
   outAF.team_balance = some ra.team_balance ∧
   outAF.quick_win = some ra.quick_win ∧
   outAF.group_summaries = ra.group_summaries ∧
   outAF.project_summaries = ra.project_summaries ∧
   outAF.source = some ra.source ∧
   outAF.generated_at = some nowa ∧ outAF.generated_by = some triga)

/-- C1: the cached-holdover rule, for both the project and the admin
scope, in both the non-forced (hold previous content, only attempt
metadata advances) and the forced (fallback content replaces stored
content) variants. -/
theorem c1_cached_holdover (S : Settings) (e : ProjectInsightRecord)
    (r : ProjectGenResult) (pid trig : String) (now jd : Int)
    (ea : AdminInsightRecord) (ra : AdminGenResult) (triga : String)
    (nowa jda : Int)
    (hr : r.source = "fallback")
    (he : e.source = some "ai" ∨ e.source = some "ai_cached")
    (hra : ra.source = "fallback")
    (hea : ea.source = some "ai" ∨ ea.source = some "ai_cached") :
    c1_holdover_property S e r pid trig now jd ea ra triga nowa jda := by
  unfold c1_holdover_property
  refine ⟨?_, ?_, ?_, ?_⟩
  · unfold apply_project_generation
    rcases he with he | he <;>
      simp [hr, he]
  · unfold apply_project_generation
    simp
  · unfold apply_admin_generation
    rcases hea with hea | hea <;>
      simp [hra, hea]
  · unfold apply_admin_generation
    simp

/-- A stored ai-sourced project record used by witnesses. -/
def sample_project_record : ProjectInsightRecord :=
  { scope := "project", project_id := "p1",
    summary := some ("good summary".toList),
    recommendation := some ("do things".toList),
    goals_summary := some ("goals fine".toList),
    citations := [{ label := "tasks", value := "3" }],
    task_insights := [],
    generated_at := some 500, generated_by := some "admin1",
    last_attempt_at := some 500, next_due_at := some 3380,
    source := some "ai", ai_error := none, word_count := some 2,
    created_at := some 100, updated_at := some 500 }

/-- A fallback project generation result used by witnesses. -/
def sample_project_fallback : ProjectGenResult :=
  { summary := "fallback summary".toList,
    recommendation := "fallback recommendation".toList,
    goals_summary := "fallback goals".toList,
    citations := [], task_insights := [],
    source := "fallback", ai_error := some "OpenAI client not available" }

/-- A stored ai-sourced admin record used by witnesses. -/
def sample_admin_record : AdminInsightRecord :=
  { scope := "admin",
    analysis := some ("deep analysis".toList),
    recommendations := some ("long advice".toList),
    focus_area := some ("focus".toList),
    team_balance := some ("balance".toList),
    quick_win := some ("win".toList),
    group_summaries := [], project_summaries := [],
    generated_at := some 700, generated_by := some "admin1",
    last_attempt_at := some 700, next_due_at := some 5200,
    source := some "ai_cached", ai_error := none, word_count := some 2,
    created_at := some 50, updated_at := some 700 }

/-- A fallback admin generation result used by witnesses. -/
def sample_admin_fallback : AdminGenResult :=
  { analysis := "short".toList,
    recommendations := "short advice".toList,
    focus_area := "f".toList, team_balance := "t".toList,
    quick_win := "q".toList,
    group_summaries := [], project_summaries := [],
    source := "fallback", ai_error := some "timeout" }

/-- C1 witness: the hold-over property at concrete records. -/
theorem c1_cached_holdover_witness :
    c1_holdover_property settings sample_project_record
      sample_project_fallback "p1" "u9" 1000 30
      sample_admin_record sample_admin_fallback "u9" 2000 60 :=
  c1_cached_holdover settings sample_project_record sample_project_fallback
    "p1" "u9" 1000 30 sample_admin_record sample_admin_fallback "u9" 2000 60
    (by decide) (Or.inl (by decide)) (by decide) (Or.inr (by decide))

/-- C7: after any generation attempt at time `now`, the stored
`next_due_at` equals `now + interval + jitter` with the jitter drawn in
`[0, max 0 jitter_bound]`; it therefore lies in
`[now + interval, now + interval + jitter_bound]` and is strictly greater
than the attempt time minus the jitter bound, for both scopes. -/
theorem c7_next_due_bounds (S : Settings) (e : Option ProjectInsightRecord)
    (r : ProjectGenResult) (pid trig : String)
    (ea : Option AdminInsightRecord) (ra : AdminGenResult)
    (force : Bool) (now jd : Int)
    (hI : 0 < S.ai_project_interval_hours)
    (hIA : 0 < S.ai_admin_interval_hours)
    (hjm : 0 ≤ S.ai_insights_jitter_minutes)
    (hj : jitter_in_range S jd) :
    ((apply_project_generation S e r pid trig force now jd).next_due_at =
        some (next_due_at now S.ai_project_interval_hours jd) ∧
      now + S.ai_project_interval_hours * 60 ≤
        next_due_at now S.ai_project_interval_hours jd ∧
      next_due_at now S.ai_project_interval_hours jd ≤
        now + S.ai_project_interval_hours * 60 + S.ai_insights_jitter_minutes ∧
      now - S.ai_insights_jitter_minutes <
        next_due_at now S.ai_project_interval_hours jd) ∧
    ((apply_admin_generation S ea ra trig force now jd).next_due_at =
        some (next_due_at now S.ai_admin_interval_hours jd) ∧
      now + S.ai_admin_interval_hours * 60 ≤
        next_due_at now S.ai_admin_interval_hours jd ∧
      next_due_at now S.ai_admin_interval_hours jd ≤
        now + S.ai_admin_interval_hours * 60 + S.ai_insights_jitter_minutes ∧
      now - S.ai_insights_jitter_minutes <
        next_due_at now S.ai_admin_interval_hours jd) := by
  obtain ⟨hj0, hj1⟩ := hj
  rw [max_eq_right hjm] at hj1
  constructor
  · refine ⟨?_, ?_, ?_, ?_⟩
    · unfold apply_project_generation
      cases e with
      | none => rfl
      | some e0 =>
        by_cases hc : (r.source == "fallback" &&
          (e0.source == some "ai" || e0.source == some "ai_cached") && !force) = true
        · simp [hc]
        · simp [hc]
    · unfold next_due_at; omega
    · unfold next_due_at; omega
    · unfold next_due_at; omega
  · refine ⟨?_, ?_, ?_, ?_⟩
    · unfold apply_admin_generation
      cases ea with
      | none => rfl
      | some e0 =>
        by_cases hc : (ra.source == "fallback" &&
          (e0.source == some "ai" || e0.source == some "ai_cached") && !force) = true
        · simp [hc]
        · simp [hc]
    · unfold next_due_at; omega
    · unfold next_due_at; omega
    · unfold next_due_at; omega

/-- C7 witness: the bounds at the default settings, a concrete attempt
time and a concrete jitter draw. -/
theorem c7_next_due_bounds_witness :
    (apply_project_generation settings none sample_project_fallback
        "p1" "system" false 10000 120).next_due_at = some (10000 + 48 * 60 + 120) ∧
    (apply_admin_generation settings none sample_admin_fallback
        "system" false 10000 120).next_due_at = some (10000 + 72 * 60 + 120) := by
  have h := c7_next_due_bounds settings none sample_project_fallback
    "p1" "system" none sample_admin_fallback false 10000 120
    (by decide) (by decide) (by decide) ⟨by decide, by decide⟩
  exact ⟨h.1.1, h.2.1⟩

/-! ## Deterministic admin fallback (`_admin_fallback_insights`)

When the provider is unreachable, unconfigured, or every parse and
repair attempt fails, `generate_admin_ai_insights`
(src/backend/app/services/ai.py:1314-1323) returns the deterministic
fallback payload directly; the word-count enforcement at lines 1347-1351
runs only on the parsed-response path. -/

/-- Decimal rendering of a count, as Python string interpolation does. -/
def natStr (n : Nat) : Str := (toString n).toList

/-- Tasks counted as overdue by `_admin_fallback_insights`
(src/backend/app/services/ai.py:1139): parseable due date before now and
status not completed. -/
def admin_overdue_count (tasks : List TaskDoc) (now : Int) : Nat :=
  (tasks.filter (fun t =>
    t.due_date.any (fun d => decide (d < now)) && t.status != "completed")).length

/-- The fallback `analysis` text (src/backend/app/services/ai.py:1144). -/
def admin_fallback_analysis (groups : List GroupDoc) (projects : List ProjectDoc)
    (tasks : List TaskDoc) (now : Int) : Str :=
  let total_tasks := tasks.length
  let completed := (tasks.filter (fun t => t.status == "completed")).length
  let on_hold := (tasks.filter (fun t => t.status == "hold" || t.status == "blocked")).length
  let overdue := admin_overdue_count tasks now
  "There are ".toList ++ natStr projects.length ++
  " projects across ".toList ++ natStr groups.length ++
  " groups. Task completion stands at ".toList ++ natStr completed ++
  " of ".toList ++ natStr total_tasks ++
  ", with ".toList ++ natStr overdue ++
  " overdue and ".toList ++ natStr on_hold ++
  " on hold. Overall delivery is stable but needs attention on aging work and stalled items. Group performance varies, with teams showing uneven workloads.".toList

/-- The fallback `recommendations` text (src/backend/app/services/ai.py:1151). -/
def admin_fallback_recommendations : Str :=
  "Focus on reducing overdue tasks by aligning owners, dates, and daily follow ups. Rebalance work by moving low priority tasks away from overloaded members. Create quick wins by closing near complete tasks and clarifying blockers for stalled work.".toList

/-- Embedding of `_admin_fallback_insights`
(src/backend/app/services/ai.py:1135-1175).  The `name` defaults
collapse a missing key and an empty name; neither case is touched by any
claim. -/
def admin_fallback_insights (groups : List GroupDoc) (projects : List ProjectDoc)
    (tasks : List TaskDoc) (users : List UserDoc) (now : Int) : AdminGenResult :=
  { analysis := admin_fallback_analysis groups projects tasks now
    recommendations := admin_fallback_recommendations
    focus_area := "Resolve overdue and blocked tasks with clear ownership.".toList
    team_balance := "Balance assignments across team members based on current workload.".toList
    quick_win := "Close tasks that are in review or near completion this week.".toList
    group_summaries := groups.map (fun g =>
      { entity_id := g.id, name := g.name,
        insight := (if g.name = "" then "Group" else g.name).toList ++
          " has ".toList ++
          natStr (projects.filter (fun p => p.group_id == g.id)).length ++
          " projects and needs regular health check-ins.".toList })
    project_summaries := projects.map (fun p =>
      { entity_id := p.id, name := p.name,
        insight := (if p.name = "" then "Project" else p.name).toList ++
          " needs steady execution to keep tasks moving toward completion.".toList })
    source := "fallback"
    ai_error := none }

/-- The result returned by `generate_admin_ai_insights` when all provider
attempts fail (src/backend/app/services/ai.py:1319-1323): the fallback
payload with the diagnostic error attached (a `generated_at` timestamp is
also attached; it carries no content).  No word-count normalization is
applied on this path. -/
def generate_admin_ai_insights_failed (groups : List GroupDoc)
    (projects : List ProjectDoc) (tasks : List TaskDoc) (users : List UserDoc)
    (now : Int) (ai_error : Option String) : AdminGenResult :=
  { admin_fallback_insights groups projects tasks users now with ai_error := ai_error }

/-- C3 counterexample: for the zero-project admin snapshot with an
unavailable provider, the returned result is fallback-sourced and its
analysis has exactly 42 words, far below the claimed 400-word floor. -/
theorem c3_fallback_word_floor_counterexample :
    (generate_admin_ai_insights_failed [] [] [] [] 0
        (some "OpenAI client not available")).source = "fallback" ∧
    word_count (generate_admin_ai_insights_failed [] [] [] [] 0
        (some "OpenAI client not available")).analysis = 42 ∧
    ¬ (400 ≤ word_count (generate_admin_ai_insights_failed [] [] [] [] 0
        (some "OpenAI client not available")).analysis ∧
       word_count (generate_admin_ai_insights_failed [] [] [] [] 0
        (some "OpenAI client not available")).analysis ≤ 600) := by
  refine ⟨rfl, by decide, ?_⟩
  intro h
  have h42 : word_count (generate_admin_ai_insights_failed [] [] [] [] 0
      (some "OpenAI client not available")).analysis = 42 := by decide
  rw [h42] at h
  omega

/-- C3 (amended): a fallback-sourced admin generation result carries the
raw deterministic fallback analysis with no word-count enforcement (the
400-600 bounds are enforced only on the parsed-response path); for the
zero-project snapshot that analysis has exactly 42 words, below the
claimed floor. -/
theorem c3_fallback_analysis_amended (groups : List GroupDoc)
    (projects : List ProjectDoc) (tasks : List TaskDoc) (users : List UserDoc)
    (now : Int) (err : Option String) :
    (generate_admin_ai_insights_failed groups projects tasks users now err).source
        = "fallback" ∧
    (generate_admin_ai_insights_failed groups projects tasks users now err).analysis
        = admin_fallback_analysis groups projects tasks now ∧
    word_count (generate_admin_ai_insights_failed [] [] [] [] 0 none).analysis = 42 ∧
    42 < 400 :=
  ⟨rfl, rfl, by decide, by omega⟩

/-! ## The insight store as a keyed document collection (C9)

`update_one(filter, {"$set": payload}, upsert=True)` modifies the first
document matching the filter or inserts one when none matches;
`insert_one` appends; `delete_one` removes the first match.  The filter
keys are `(scope, project_id)` for project scopes and `scope` for the
admin scope, and every `$set` payload re-asserts the same key fields, so
an update never changes a document key. -/

/-- A stored document: the scope-key fields plus an abstract payload. -/
structure KeyedDoc (α : Type) where
  scope : String
  project_id : String
  data : α

/-- The filter `{"scope": "project", "project_id": pid}`. -/
def matches_project (pid : String) (d : KeyedDoc α) : Bool :=
  d.scope == "project" && d.project_id == pid

/-- The filter `{"scope": "admin"}`. -/
def matches_admin (d : KeyedDoc α) : Bool :=
  d.scope == "admin"

/-- Replace the payload of the first matching document. -/
def update_first (m : KeyedDoc α → Bool) (new_data : α) :
    List (KeyedDoc α) → List (KeyedDoc α)
  | [] => []
  | d :: ds =>
    if m d then { d with data := new_data } :: ds
    else d :: update_first m new_data ds

/-- `update_one(..., upsert=True)`: update the first match, or insert. -/
def upsert_one (m : KeyedDoc α → Bool) (new_data : α) (ins : KeyedDoc α)
    (st : List (KeyedDoc α)) : List (KeyedDoc α) :=
  if st.any m then update_first m new_data st else st ++ [ins]

/-- `delete_one`: remove the first match. -/
def delete_one (m : KeyedDoc α → Bool) : List (KeyedDoc α) → List (KeyedDoc α)
  | [] => []
  | d :: ds => if m d then ds else d :: delete_one m ds

/-- The store writes performed by the scheduler service
(src/backend/app/services/ai_scheduler.py): lazy scheduling (:80, :100),
the startup bootstrap loop (:48-67, find-then-insert per project), and
the generation paths (:196-222, :277-304; when the project has been
deleted the stale record is removed instead, :131). -/
inductive StoreOp (α : Type) where
  | schedule_project (pid : String) (data : α)
  | schedule_admin (data : α)
  | ensure_project_schedules (entries : List (String × α))
  | generate_project (pid : String) (project_exists : Bool) (data : α)
  | generate_admin (data : α)

/-- Effect of one store operation. -/
def apply_op : StoreOp α → List (KeyedDoc α) → List (KeyedDoc α)
  | .schedule_project pid d, st =>
      upsert_one (matches_project pid) d ⟨"project", pid, d⟩ st
  | .schedule_admin d, st =>
      upsert_one matches_admin d ⟨"admin", "", d⟩ st
  | .ensure_project_schedules entries, st =>
      entries.foldl
        (fun acc pd =>
          if acc.any (matches_project pd.1) then acc
          else acc ++ [⟨"project", pd.1, pd.2⟩])
        st
  | .generate_project pid project_exists d, st =>
      if project_exists then
        upsert_one (matches_project pid) d ⟨"project", pid, d⟩ st
      else delete_one (matches_project pid) st
  | .generate_admin d, st =>
      upsert_one matches_admin d ⟨"admin", "", d⟩ st

/-- At most one stored document per scope key. -/
def at_most_one_per_key (st : List (KeyedDoc α)) : Prop :=
  (∀ pid, st.countP (matches_project pid) ≤ 1) ∧
  st.countP matches_admin ≤ 1

theorem countP_update_first (m : KeyedDoc α → Bool) (q : KeyedDoc α → Bool)
    (hq : ∀ (d : KeyedDoc α) nd, q { d with data := nd } = q d)
    (nd : α) (st : List (KeyedDoc α)) :
    (update_first m nd st).countP q = st.countP q := by
  induction st with
  | nil => rfl
  | cons d ds ih =>
    unfold update_first
    by_cases hm : m d = true
    · rw [if_pos hm]
      simp [List.countP_cons, hq]
    · rw [if_neg hm]
      simp [List.countP_cons, ih]

theorem countP_delete_one_le (m : KeyedDoc α → Bool) (q : KeyedDoc α → Bool)
    (st : List (KeyedDoc α)) :
    (delete_one m st).countP q ≤ st.countP q := by
  induction st with
  | nil => exact Nat.le_refl _
  | cons d ds ih =>
    unfold delete_one
    by_cases hm : m d = true
    · rw [if_pos hm, List.countP_cons]
      exact Nat.le_add_right _ _
    · rw [if_neg hm, List.countP_cons, List.countP_cons]
      exact Nat.add_le_add_right ih _

theorem countP_eq_zero_of_any_false (q : KeyedDoc α → Bool)
    (st : List (KeyedDoc α)) (ha : ¬ (st.any q = true)) : st.countP q = 0 := by
  rw [List.countP_eq_zero]
  intro d hd
  exact (List.any_eq_false).mp (by simpa using ha) d hd

theorem countP_upsert_project (pid pid' : String) (nd : α) (st : List (KeyedDoc α))
    (h : st.countP (matches_project pid') ≤ 1) :
    (upsert_one (matches_project pid) nd ⟨"project", pid, nd⟩ st).countP
      (matches_project pid') ≤ 1 := by
  unfold upsert_one
  by_cases ha : st.any (matches_project pid) = true
  · rw [if_pos ha, countP_update_first]
    · exact h
    · intro d nd0; rfl
  · rw [if_neg ha, List.countP_append]
    by_cases hp : pid' = pid
    · subst hp
      rw [countP_eq_zero_of_any_false _ _ ha]
      simp [List.countP_cons, matches_project]
    · have h1 : List.countP (matches_project pid') [(⟨"project", pid, nd⟩ : KeyedDoc α)] = 0 := by
        simp [List.countP_cons, matches_project, hp]
        intro h2
        exact absurd h2.symm hp
      omega

theorem countP_upsert_admin_of_project (pid : String) (nd : α) (st : List (KeyedDoc α))
    (h : st.countP matches_admin ≤ 1) :
    (upsert_one (matches_project pid) nd ⟨"project", pid, nd⟩ st).countP
      matches_admin ≤ 1 := by
  unfold upsert_one
  by_cases ha : st.any (matches_project pid) = true
  · rw [if_pos ha, countP_update_first]
    · exact h
    · intro d nd0; rfl
  · rw [if_neg ha, List.countP_append]
    have h1 : List.countP matches_admin [(⟨"project", pid, nd⟩ : KeyedDoc α)] = 0 := by
      simp [List.countP_cons, matches_admin]
    omega

theorem countP_upsert_admin (nd : α) (st : List (KeyedDoc α))
    (h : st.countP matches_admin ≤ 1) :
    (upsert_one matches_admin nd ⟨"admin", "", nd⟩ st).countP matches_admin ≤ 1 := by
  unfold upsert_one
  by_cases ha : st.any matches_admin = true
  · rw [if_pos ha, countP_update_first]
    · exact h
    · intro d nd0; rfl
  · rw [if_neg ha, List.countP_append]
    rw [countP_eq_zero_of_any_false _ _ ha]
    simp [List.countP_cons, matches_admin]

theorem countP_upsert_project_of_admin (nd : α) (pid : String) (st : List (KeyedDoc α))
    (h : st.countP (matches_project pid) ≤ 1) :
    (upsert_one matches_admin nd ⟨"admin", "", nd⟩ st).countP
      (matches_project pid) ≤ 1 := by
  unfold upsert_one
  by_cases ha : st.any matches_admin = true
  · rw [if_pos ha, countP_update_first]
    · exact h
    · intro d nd0; rfl
  · rw [if_neg ha, List.countP_append]
    have h1 : List.countP (matches_project pid) [(⟨"admin", "", nd⟩ : KeyedDoc α)] = 0 := by
      simp [List.countP_cons, matches_project]
    omega

theorem countP_upsert_project_eq_one (pid : String) (nd : α) (st : List (KeyedDoc α))
    (h : st.countP (matches_project pid) ≤ 1) :
    (upsert_one (matches_project pid) nd ⟨"project", pid, nd⟩ st).countP
      (matches_project pid) = 1 := by
  unfold upsert_one
  by_cases ha : st.any (matches_project pid) = true
  · rw [if_pos ha, countP_update_first]
    · have h1 : 1 ≤ st.countP (matches_project pid) := by
        obtain ⟨d, hd, hmd⟩ := List.any_eq_true.mp ha
        calc 1 = List.countP (matches_project pid) [d] := by simp [List.countP_cons, hmd]
        _ ≤ _ := by
            rcases List.append_of_mem hd with ⟨l1, l2, rfl⟩
            simp [List.countP_append, List.countP_cons, hmd]
            omega
      omega
    · intro d nd0; rfl
  · rw [if_neg ha, List.countP_append]
    rw [countP_eq_zero_of_any_false _ _ ha]
    simp [List.countP_cons, matches_project]

theorem countP_upsert_admin_eq_one (nd : α) (st : List (KeyedDoc α))
    (h : st.countP matches_admin ≤ 1) :
    (upsert_one matches_admin nd ⟨"admin", "", nd⟩ st).countP matches_admin = 1 := by
  unfold upsert_one
  by_cases ha : st.any matches_admin = true
  · rw [if_pos ha, countP_update_first]
    · have h1 : 1 ≤ st.countP matches_admin := by
        obtain ⟨d, hd, hmd⟩ := List.any_eq_true.mp ha
        rcases List.append_of_mem hd with ⟨l1, l2, rfl⟩
        simp [List.countP_append, List.countP_cons, hmd]
        omega
      omega
    · intro d nd0; rfl
  · rw [if_neg ha, List.countP_append]
    rw [countP_eq_zero_of_any_false _ _ ha]
    simp [List.countP_cons, matches_admin]

theorem ensure_preserves (entries : List (String × α)) (st : List (KeyedDoc α))
    (h : at_most_one_per_key st) :
    at_most_one_per_key
      (entries.foldl
        (fun acc pd =>
          if acc.any (matches_project pd.1) then acc
          else acc ++ [⟨"project", pd.1, pd.2⟩])
        st) := by
  induction entries generalizing st with
  | nil => exact h
  | cons e rest ih =>
    rw [List.foldl_cons]
    apply ih
    show at_most_one_per_key
      (if st.any (matches_project e.1) = true then st
       else st ++ [⟨"project", e.1, e.2⟩])
    by_cases ha : st.any (matches_project e.1) = true
    · rw [if_pos ha]; exact h
    · rw [if_neg ha]
      obtain ⟨hp, hadm⟩ := h
      constructor
      · intro pid'
        rw [List.countP_append]
        by_cases hpe : pid' = e.1
        · subst hpe
          rw [countP_eq_zero_of_any_false _ _ ha]
          simp [List.countP_cons, matches_project]
        · have h1 : List.countP (matches_project pid')
              [(⟨"project", e.1, e.2⟩ : KeyedDoc α)] = 0 := by
            simp [List.countP_cons, matches_project]
            intro h2
            exact absurd h2.symm hpe
          have := hp pid'
          omega
      · rw [List.countP_append]
        have h1 : List.countP matches_admin
            [(⟨"project", e.1, e.2⟩ : KeyedDoc α)] = 0 := by
          simp [List.countP_cons, matches_admin]
        omega

theorem apply_op_preserves (op : StoreOp α) (st : List (KeyedDoc α))
    (h : at_most_one_per_key st) : at_most_one_per_key (apply_op op st) := by
  obtain ⟨hp, hadm⟩ := h
  cases op with
  | schedule_project pid d =>
    exact ⟨fun pid' => countP_upsert_project pid pid' d st (hp pid'),
      countP_upsert_admin_of_project pid d st hadm⟩
  | schedule_admin d =>
    exact ⟨fun pid' => countP_upsert_project_of_admin d pid' st (hp pid'),
      countP_upsert_admin d st hadm⟩
  | ensure_project_schedules entries =>
    exact ensure_preserves entries st ⟨hp, hadm⟩
  | generate_project pid project_exists d =>
    show at_most_one_per_key
      (if project_exists = true then
        upsert_one (matches_project pid) d ⟨"project", pid, d⟩ st
       else delete_one (matches_project pid) st)
    by_cases he : project_exists = true
    · rw [if_pos he]
      exact ⟨fun pid' => countP_upsert_project pid pid' d st (hp pid'),
        countP_upsert_admin_of_project pid d st hadm⟩
    · rw [if_neg he]
      exact ⟨fun pid' => le_trans (countP_delete_one_le _ _ st) (hp pid'),
        le_trans (countP_delete_one_le _ _ st) hadm⟩
  | generate_admin d =>
    exact ⟨fun pid' => countP_upsert_project_of_admin d pid' st (hp pid'),
      countP_upsert_admin d st hadm⟩

/-- C9: every store write is keyed by scope: starting from a store with
at most one InsightRecord per scope key, any scheduler or generation
operation preserves that invariant, and two consecutive generate-now
calls for the same existing scope leave exactly one document for that
scope key. -/
theorem c9_upsert_per_scope_key (α : Type) :
    (∀ (op : StoreOp α) (st : List (KeyedDoc α)),
      at_most_one_per_key st → at_most_one_per_key (apply_op op st)) ∧
    (∀ (pid : String) (d1 d2 : α) (st : List (KeyedDoc α)),
      at_most_one_per_key st →
      (apply_op (.generate_project pid true d2)
        (apply_op (.generate_project pid true d1) st)).countP
          (matches_project pid) = 1) ∧
    (∀ (d1 d2 : α) (st : List (KeyedDoc α)),
      at_most_one_per_key st →
      (apply_op (.generate_admin d2)
        (apply_op (.generate_admin d1) st)).countP matches_admin = 1) := by
  refine ⟨apply_op_preserves, ?_, ?_⟩
  · intro pid d1 d2 st h
    have h1 := apply_op_preserves (α := α) (.generate_project pid true d1) st h
    show (upsert_one (matches_project pid) d2 ⟨"project", pid, d2⟩
      (apply_op (.generate_project pid true d1) st)).countP (matches_project pid) = 1
    exact countP_upsert_project_eq_one pid d2 _ (h1.1 pid)
  · intro d1 d2 st h
    have h1 := apply_op_preserves (α := α) (.generate_admin d1) st h
    show (upsert_one matches_admin d2 ⟨"admin", "", d2⟩
      (apply_op (.generate_admin d1) st)).countP matches_admin = 1
    exact countP_upsert_admin_eq_one d2 _ h1.2

/-- C9 witness: the invariant and the exactly-one-after-two-generations
facts at a concrete two-document store. -/
theorem c9_upsert_per_scope_key_witness :
    at_most_one_per_key
      (apply_op (.schedule_project "p2" 7)
        [(⟨"project", "p1", 1⟩ : KeyedDoc Nat), ⟨"admin", "", 2⟩]) ∧
    (apply_op (.generate_project "p1" true 9)
      (apply_op (.generate_project "p1" true 8)
        [(⟨"project", "p1", 1⟩ : KeyedDoc Nat), ⟨"admin", "", 2⟩])).countP
        (matches_project "p1") = 1 ∧
    (apply_op (.generate_admin 9)
      (apply_op (.generate_admin 8)
        [(⟨"project", "p1", 1⟩ : KeyedDoc Nat), ⟨"admin", "", 2⟩])).countP
        matches_admin = 1 := by
  have hinv : at_most_one_per_key
      [(⟨"project", "p1", 1⟩ : KeyedDoc Nat), ⟨"admin", "", 2⟩] := by
    constructor
    · intro pid
      simp only [List.countP_cons, List.countP_nil, matches_project]
      by_cases hp : "p1" = pid <;> simp [hp]
    · decide
  exact ⟨(c9_upsert_per_scope_key Nat).1 _ _ hinv,
    (c9_upsert_per_scope_key Nat).2.1 "p1" 8 9 _ hinv,
    (c9_upsert_per_scope_key Nat).2.2 8 9 _ hinv⟩

/-! ## Project context building: task ranking and sampling (C4)

`generate_project_ai_insights` (src/backend/app/services/ai.py:957-1005)
sorts the task list with Python `sorted` under the key
`(0 if status == "completed" else 1, 0 if health == "at_risk" else 1)`,
caps the sample at `settings.ai_project_task_limit` and reports
`task_total = len(tasks)` next to `task_sampled = len(task_payload)`
(the payload maps the sample one-to-one).  Python `sorted` is a stable
ascending sort, realized here by insertion sort inserting each earlier
element in front of the equal-key elements already placed. -/

/-- The sort key of src/backend/app/services/ai.py:959-962. -/
def task_sort_key (now : Int) (t : TaskDoc) : Nat × Nat :=
  ((if t.status == "completed" then 0 else 1),
   (if (task_health t now).1 == "at_risk" then 0 else 1))

/-- Python tuple comparison on the sort keys. -/
def key_le (x y : Nat × Nat) : Prop :=
  x.1 < y.1 ∨ (x.1 = y.1 ∧ x.2 ≤ y.2)

instance key_le_dec : DecidableRel key_le := fun x y => by
  unfold key_le; infer_instance

/-- The element order induced by the task sort key. -/
def task_le (now : Int) (a b : TaskDoc) : Prop :=
  key_le (task_sort_key now a) (task_sort_key now b)

instance task_le_dec (now : Int) : DecidableRel (task_le now) := fun a b => by
  unfold task_le; exact key_le_dec _ _

/-- `sorted(tasks, key=...)` of src/backend/app/services/ai.py:957. -/
def tasks_sorted (now : Int) (tasks : List TaskDoc) : List TaskDoc :=
  List.insertionSort (task_le now) tasks

/-- The claim-relevant fields of the generation context
(src/backend/app/services/ai.py:965-996). -/
structure ProjectContextMeta where
  task_total : Nat
  task_sampled : Nat
  task_sample : List TaskDoc
deriving DecidableEq

/-- The sampling part of `generate_project_ai_insights`: sort, cap at the
configured limit, report true total and sampled counts. -/
def generate_project_context (S : Settings) (now : Int)
    (tasks : List TaskDoc) : ProjectContextMeta :=
  let sorted_tasks := tasks_sorted now tasks
  let task_sample := sorted_tasks.take S.ai_project_task_limit
  { task_total := tasks.length
    task_sampled := task_sample.length
    task_sample := task_sample }

theorem orderedInsert_skip (r : TaskDoc → TaskDoc → Prop) [DecidableRel r]
    (a : TaskDoc) (xs ys : List TaskDoc) (h : ∀ x ∈ xs, ¬ r a x) :
    List.orderedInsert r a (xs ++ ys) = xs ++ List.orderedInsert r a ys := by
  induction xs with
  | nil => rfl
  | cons x xs ih =>
    rw [List.cons_append, List.orderedInsert,
      if_neg (h x (List.mem_cons_self _ _)), List.cons_append,
      ih (fun z hz => h z (List.mem_cons_of_mem _ hz))]

theorem orderedInsert_front (r : TaskDoc → TaskDoc → Prop) [DecidableRel r]
    (a : TaskDoc) (ys : List TaskDoc) (h : ∀ y ∈ ys, r a y) :
    List.orderedInsert r a ys = a :: ys := by
  cases ys with
  | nil => rfl
  | cons y ys => rw [List.orderedInsert, if_pos (h y (List.mem_cons_self _ _))]

/-- The tasks of one sort-key value, in original order. -/
def key_block (now : Int) (k : Nat × Nat) (tasks : List TaskDoc) : List TaskDoc :=
  tasks.filter (fun t => task_sort_key now t == k)

theorem mem_key_block {now : Int} {k : Nat × Nat} {l : List TaskDoc} {x : TaskDoc}
    (h : x ∈ key_block now k l) : task_sort_key now x = k := by
  have := List.of_mem_filter h
  simpa using this

theorem task_key_cases (now : Int) (t : TaskDoc) :
    task_sort_key now t = (0, 0) ∨ task_sort_key now t = (0, 1) ∨
    task_sort_key now t = (1, 0) ∨ task_sort_key now t = (1, 1) := by
  unfold task_sort_key
  by_cases h1 : (t.status == "completed") = true <;>
    by_cases h2 : ((task_health t now).1 == "at_risk") = true <;>
      simp [h1, h2]

/-- Stable sort = concatenation of the four key blocks in key order. -/
theorem tasks_sorted_blocks (now : Int) (tasks : List TaskDoc) :
    tasks_sorted now tasks =
      key_block now (0, 0) tasks ++ key_block now (0, 1) tasks ++
      key_block now (1, 0) tasks ++ key_block now (1, 1) tasks := by
  induction tasks with
  | nil => rfl
  | cons t ts ih =>
    have hstep : tasks_sorted now (t :: ts) =
        List.orderedInsert (task_le now) t (tasks_sorted now ts) := rfl
    have hcons : ∀ (k : Nat × Nat), task_sort_key now t = k →
        key_block now k (t :: ts) = t :: key_block now k ts := by
      intro k hk
      unfold key_block
      rw [List.filter_cons, hk]
      simp
    have hskipb : ∀ (k : Nat × Nat), task_sort_key now t ≠ k →
        key_block now k (t :: ts) = key_block now k ts := by
      intro k hk
      unfold key_block
      rw [List.filter_cons]
      have : (task_sort_key now t == k) = false := by
        simpa using hk
      rw [this]
      simp
    rcases task_key_cases now t with hkey | hkey | hkey | hkey
    · rw [hstep, ih, List.append_assoc, List.append_assoc,
        orderedInsert_front _ t _ (fun y hy => ?_),
        hcons (0, 0) hkey,
        hskipb (0, 1) (by rw [hkey]; decide),
        hskipb (1, 0) (by rw [hkey]; decide),
        hskipb (1, 1) (by rw [hkey]; decide)]
      · simp
      · unfold task_le
        rw [hkey]
        rcases List.mem_append.mp hy with hy | hy
        · rw [mem_key_block hy]; decide
        rcases List.mem_append.mp hy with hy | hy
        · rw [mem_key_block hy]; decide
        rcases List.mem_append.mp hy with hy | hy
        · rw [mem_key_block hy]; decide
        · rw [mem_key_block hy]; decide
    · rw [hstep, ih, List.append_assoc, List.append_assoc,
        orderedInsert_skip _ t _ _ (fun x hx => ?_),
        orderedInsert_front _ t _ (fun y hy => ?_),
        hskipb (0, 0) (by rw [hkey]; decide),
        hcons (0, 1) hkey,
        hskipb (1, 0) (by rw [hkey]; decide),
        hskipb (1, 1) (by rw [hkey]; decide)]
      · simp
      · unfold task_le
        rw [hkey]
        rcases List.mem_append.mp hy with hy | hy
        · rw [mem_key_block hy]; decide
        rcases List.mem_append.mp hy with hy | hy
        · rw [mem_key_block hy]; decide
        · rw [mem_key_block hy]; decide
      · unfold task_le
        rw [hkey, mem_key_block hx]
        decide
    · rw [hstep, ih,
        List.append_assoc (key_block now (0, 0) ts ++ key_block now (0, 1) ts)
          (key_block now (1, 0) ts) (key_block now (1, 1) ts),
        orderedInsert_skip _ t _ _ (fun x hx => ?_),
        orderedInsert_front _ t _ (fun y hy => ?_),
        hskipb (0, 0) (by rw [hkey]; decide),
        hskipb (0, 1) (by rw [hkey]; decide),
        hcons (1, 0) hkey,
        hskipb (1, 1) (by rw [hkey]; decide)]
      · simp
      · unfold task_le
        rw [hkey]
        rcases List.mem_append.mp hy with hy | hy
        · rw [mem_key_block hy]; decide
        · rw [mem_key_block hy]; decide
      · unfold task_le
        rw [hkey]
        rcases List.mem_append.mp hx with hx | hx
        · rw [mem_key_block hx]; decide
        · rw [mem_key_block hx]; decide
    · rw [hstep, ih,
        List.append_assoc (key_block now (0, 0) ts) (key_block now (0, 1) ts)
          (key_block now (1, 0) ts),
        orderedInsert_skip _ t _ _ (fun x hx => ?_),
        orderedInsert_front _ t _ (fun y hy => ?_),
        hskipb (0, 0) (by rw [hkey]; decide),
        hskipb (0, 1) (by rw [hkey]; decide),
        hskipb (1, 0) (by rw [hkey]; decide),
        hcons (1, 1) hkey]
      · simp
      · unfold task_le
        rw [hkey, mem_key_block hy]
        decide
      · unfold task_le
        rw [hkey]
        rcases List.mem_append.mp hx with hx | hx
        · rw [mem_key_block hx]; decide
        rcases List.mem_append.mp hx with hx | hx
        · rw [mem_key_block hx]; decide
        · rw [mem_key_block hx]; decide

theorem task_health_completed (t : TaskDoc) (now : Int)
    (h : t.status = "completed") : task_health t now = ("on_track", "completed") := by
  unfold task_health
  rw [h]
  rfl

theorem key_block_00_eq_nil (now : Int) (tasks : List TaskDoc) :
    key_block now (0, 0) tasks = [] := by
  unfold key_block
  rw [List.filter_eq_nil]
  intro t ht
  unfold task_sort_key
  by_cases hc : (t.status == "completed") = true
  · have hceq : t.status = "completed" := by simpa using hc
    rw [task_health_completed t now hceq]
    simp [hceq]
  · simp [hc]

theorem key_block_01_eq (now : Int) (tasks : List TaskDoc) :
    key_block now (0, 1) tasks =
      tasks.filter (fun t => t.status == "completed") := by
  unfold key_block
  apply List.filter_congr
  intro t ht
  unfold task_sort_key
  by_cases hc : (t.status == "completed") = true
  · have hceq : t.status = "completed" := by simpa using hc
    rw [task_health_completed t now hceq]
    simp [hceq]
  · simp [hc]

theorem key_block_10_eq (now : Int) (tasks : List TaskDoc) :
    key_block now (1, 0) tasks =
      tasks.filter (fun t => !(t.status == "completed") &&
        ((task_health t now).1 == "at_risk")) := by
  unfold key_block
  apply List.filter_congr
  intro t ht
  unfold task_sort_key
  by_cases hc : (t.status == "completed") = true <;>
    by_cases hr : ((task_health t now).1 == "at_risk") = true <;>
      simp [hc, hr] <;> decide

theorem key_block_11_eq (now : Int) (tasks : List TaskDoc) :
    key_block now (1, 1) tasks =
      tasks.filter (fun t => !(t.status == "completed") &&
        !((task_health t now).1 == "at_risk")) := by
  unfold key_block
  apply List.filter_congr
  intro t ht
  unfold task_sort_key
  by_cases hc : (t.status == "completed") = true <;>
    by_cases hr : ((task_health t now).1 == "at_risk") = true <;>
      simp [hc, hr] <;> decide

/-- A completed task used by the C4 counterexample. -/
def c4_completed_task : TaskDoc :=
  { id := "t1", project_id := "p1", status := "completed", due_date := none,
    assigned_by_id := "", assignee_ids := [], collaborator_ids := [] }

/-- A pending task used by the C4 counterexample. -/
def c4_pending_task : TaskDoc :=
  { id := "t2", project_id := "p1", status := "in_progress", due_date := none,
    assigned_by_id := "", assignee_ids := [], collaborator_ids := [] }

/-- The ordering asserted by the claim: no completed task is placed
before a not-completed one. -/
def not_completed_first (l : List TaskDoc) : Prop :=
  ∀ (i j : Fin l.length), (i : Nat) < (j : Nat) →
    (l.get i).status = "completed" → (l.get j).status = "completed"

instance not_completed_first_dec (l : List TaskDoc) :
    Decidable (not_completed_first l) := by
  unfold not_completed_first
  infer_instance

/-- C4 counterexample: sorting a completed and an in-progress task keeps
the completed one first (key 0 sorts before key 1), so not-completed
tasks do not come before completed ones as the claim states. -/
theorem c4_sort_order_counterexample :
    tasks_sorted 0 [c4_completed_task, c4_pending_task] =
      [c4_completed_task, c4_pending_task] ∧
    ¬ not_completed_first (tasks_sorted 0 [c4_completed_task, c4_pending_task]) := by
  constructor
  · rfl
  · decide

/-- C4 (amended): the generation context sorts tasks with completed
tasks first and, within the not-completed ones, at-risk tasks first
(the reverse of the claimed completed-last order); it caps the sample at
the configured limit (default 40) and reports the true task total next
to the sampled count. -/
theorem c4_project_context_amended (S : Settings) (now : Int)
    (tasks : List TaskDoc) :
    tasks_sorted now tasks =
      tasks.filter (fun t => t.status == "completed") ++
      tasks.filter (fun t => !(t.status == "completed") &&
        ((task_health t now).1 == "at_risk")) ++
      tasks.filter (fun t => !(t.status == "completed") &&
        !((task_health t now).1 == "at_risk")) ∧
    (generate_project_context S now tasks).task_total = tasks.length ∧
    (generate_project_context S now tasks).task_sample =
      (tasks_sorted now tasks).take S.ai_project_task_limit ∧
    (generate_project_context S now tasks).task_sampled =
      min S.ai_project_task_limit tasks.length ∧
    settings.ai_project_task_limit = 40 := by
  refine ⟨?_, rfl, rfl, ?_, rfl⟩
  · rw [tasks_sorted_blocks, key_block_00_eq_nil, key_block_01_eq,
      key_block_10_eq, key_block_11_eq]
    simp
  · show ((tasks_sorted now tasks).take S.ai_project_task_limit).length = _
    rw [List.length_take]
    congr 1
    exact (List.perm_insertionSort (task_le now) tasks).length_eq

/-! ## Role-scoped admin view: scope filter and trim (C5, C6)

`_filter_manager_scope` and `_trim_manager_scope`
(src/backend/app/routes/ai.py:104-202 and :38-102).  Every caller in the
repository supplies the users and comments lists, so the `None` defaults
of the Python signature are omitted.  `_normalize_id_list` drops `None`
entries, stringifies and removes duplicates keeping the first
occurrence; its input here is already a list of strings, so it is the
first-occurrence dedup. -/

/-- First-occurrence duplicate removal (`list(dict.fromkeys(...))`). -/
def pyDedupAux (seen : List String) : List String → List String
  | [] => []
  | x :: xs =>
    if seen.contains x then pyDedupAux seen xs
    else x :: pyDedupAux (x :: seen) xs

/-- Embedding of `_normalize_id_list` (src/backend/app/routes/ai.py:12)
on an id list with no null entries. -/
def pyDedup (l : List String) : List String := pyDedupAux [] l

theorem mem_pyDedupAux (l : List String) :
    ∀ (seen : List String) (x : String),
      x ∈ pyDedupAux seen l ↔ (x ∈ l ∧ x ∉ seen) := by
  induction l with
  | nil => intro seen x; simp [pyDedupAux]
  | cons y ys ih =>
    intro seen x
    unfold pyDedupAux
    by_cases hy : seen.contains y = true
    · rw [if_pos hy, ih]
      constructor
      · rintro ⟨h1, h2⟩
        exact ⟨List.mem_cons_of_mem _ h1, h2⟩
      · rintro ⟨h1, h2⟩
        rcases List.mem_cons.mp h1 with rfl | h1
        · exact absurd (List.elem_iff.mp hy) h2
        · exact ⟨h1, h2⟩
    · rw [if_neg hy, List.mem_cons, ih]
      constructor
      · rintro (rfl | ⟨h1, h2⟩)
        · exact ⟨List.mem_cons_self _ _, fun hx => hy (List.elem_iff.mpr hx)⟩
        · exact ⟨List.mem_cons_of_mem _ h1,
            fun hx => h2 (List.mem_cons_of_mem _ hx)⟩
      · rintro ⟨h1, h2⟩
        rcases List.mem_cons.mp h1 with rfl | h1
        · exact Or.inl rfl
        · by_cases hxy : x = y
          · exact Or.inl hxy
          · refine Or.inr ⟨h1, fun hx => ?_⟩
            rcases List.mem_cons.mp hx with rfl | hx
            · exact hxy rfl
            · exact h2 hx

theorem mem_pyDedup (l : List String) (x : String) :
    x ∈ pyDedup l ↔ x ∈ l := by
  unfold pyDedup
  rw [mem_pyDedupAux]
  simp

/-- The output of the scope filter and of the trim step. -/
structure ScopeResult where
  groups : List GroupDoc
  projects : List ProjectDoc
  tasks : List TaskDoc
  users : List UserDoc
  comments : List CommentDoc
deriving DecidableEq

/-- Step 1 of the closure (src/backend/app/routes/ai.py:114-119): the
granted group ids plus the groups the actor owns. -/
def manager_group_ids (current_user : UserDoc) (groups : List GroupDoc) :
    List String :=
  pyDedup current_user.access.group_ids ++
  (groups.filter (fun g => g.owner_id == current_user.id)).map (fun g => g.id)

/-- Steps 2-3 of the closure (src/backend/app/routes/ai.py:121-145):
projects granted directly or through a group, owned, collaborated on or
accessible, plus the project of every task the actor created, is
assigned to or collaborates on. -/
def accessible_project_ids (current_user : UserDoc) (group_ids : List String)
    (projects : List ProjectDoc) (tasks : List TaskDoc) : List String :=
  let user_id := current_user.id
  let project_ids := pyDedup current_user.access.project_ids
  (projects.filter (fun p =>
      project_ids.contains p.id || group_ids.contains p.group_id ||
      p.owner_id == user_id ||
      (pyDedup p.access_user_ids).contains user_id ||
      (pyDedup p.collaborator_ids).contains user_id)).map (fun p => p.id)
  ++ tasks.filterMap (fun t =>
      if t.project_id != "" &&
          (t.assigned_by_id == user_id ||
           (pyDedup t.assignee_ids).contains user_id ||
           (pyDedup t.collaborator_ids).contains user_id)
      then some t.project_id else none)

/-- The users visible from a set of scoped projects, tasks and groups
(src/backend/app/routes/ai.py:157-185, shared by the trim step at
:75-101): project owners, access users and collaborators; task creators,
assignees and collaborators; and users whose own grants intersect the
scoped group or project ids (the trim step intersects grants with the
group ids of the kept projects). -/
def scoped_user_list (user_list : List UserDoc) (ps : List ProjectDoc)
    (ts : List TaskDoc) (group_id_pool : List String)
    (project_id_pool : List String) : List UserDoc :=
  let proj_user_ids := ps.bind (fun p =>
    (if p.owner_id != "" then [p.owner_id] else []) ++
    pyDedup p.access_user_ids ++ pyDedup p.collaborator_ids)
  let task_user_ids := ts.bind (fun t =>
    (if t.assigned_by_id != "" then [t.assigned_by_id] else []) ++
    pyDedup t.assignee_ids ++ pyDedup t.collaborator_ids)
  let grant_ids := user_list.filterMap (fun u =>
    if (pyDedup u.access.group_ids).any (fun gid => group_id_pool.contains gid) ||
       (pyDedup u.access.project_ids).any (fun pid => project_id_pool.contains pid)
    then some u.id else none)
  let user_ids := proj_user_ids ++ task_user_ids ++ grant_ids
  user_list.filter (fun u => user_ids.contains u.id)

/-- The comments attached to an in-scope task or project
(src/backend/app/routes/ai.py:187-199, shared by the trim step at
:64-74). -/
def scoped_comment_list (comment_list : List CommentDoc)
    (task_ids : List String) (project_ids : List String) : List CommentDoc :=
  comment_list.filter (fun c =>
    (c.task_id != "" && task_ids.contains c.task_id) ||
    (c.project_id != "" && project_ids.contains c.project_id))

/-- Embedding of `_filter_manager_scope`
(src/backend/app/routes/ai.py:104-202). -/
def filter_manager_scope (current_user : UserDoc) (groups : List GroupDoc)
    (projects : List ProjectDoc) (tasks : List TaskDoc)
    (users : List UserDoc) (comments : List CommentDoc) : ScopeResult :=
  let group_ids := manager_group_ids current_user groups
  let accessible := accessible_project_ids current_user group_ids projects tasks
  let group_ids2 := group_ids ++
    (projects.filter (fun p =>
      accessible.contains p.id && p.group_id != "")).map (fun p => p.group_id)
  let scoped_groups := groups.filter (fun g => group_ids2.contains g.id)
  let scoped_projects := projects.filter (fun p => accessible.contains p.id)
  let scoped_tasks := tasks.filter (fun t => accessible.contains t.project_id)
  { groups := scoped_groups
    projects := scoped_projects
    tasks := scoped_tasks
    users := scoped_user_list users scoped_projects scoped_tasks
      (scoped_groups.map (fun g => g.id)) (scoped_projects.map (fun p => p.id))
    comments := scoped_comment_list comments
      (scoped_tasks.filterMap (fun t => if t.id != "" then some t.id else none))
      (scoped_projects.filterMap (fun p => if p.id != "" then some p.id else none)) }

/-- Embedding of `_project_sort_key` (src/backend/app/routes/ai.py:25):
the first parseable of the updated/created timestamps, `datetime.min`
(the bottom element) when neither is present. -/
def project_sort_key (p : ProjectDoc) : WithBot Int :=
  match p.updated_at with
  | some v => (v : WithBot Int)
  | none =>
    match p.created_at with
    | some v => (v : WithBot Int)
    | none => ⊥

/-- Descending order on the sort key; Python `sorted(..., reverse=True)`
is the stable descending sort, realized by insertion sort. -/
def project_ge (a b : ProjectDoc) : Prop :=
  project_sort_key b ≤ project_sort_key a

instance project_ge_dec : DecidableRel project_ge := fun a b => by
  unfold project_ge; infer_instance

/-- Embedding of `_trim_manager_scope`
(src/backend/app/routes/ai.py:38-102) with the default limit 5. -/
def trim_manager_scope (scoped_groups : List GroupDoc)
    (scoped_projects : List ProjectDoc) (scoped_tasks : List TaskDoc)
    (scoped_users : List UserDoc) (scoped_comments : List CommentDoc)
    (limit : Nat) : ScopeResult :=
  if scoped_projects.isEmpty then
    { groups := scoped_groups, projects := scoped_projects,
      tasks := scoped_tasks, users := scoped_users,
      comments := scoped_comments }
  else
    let trimmed_projects := (List.insertionSort project_ge scoped_projects).take limit
    let trimmed_project_ids := trimmed_projects.filterMap
      (fun p => if p.id != "" then some p.id else none)
    let trimmed_tasks := scoped_tasks.filter
      (fun t => trimmed_project_ids.contains t.project_id)
    let trimmed_task_ids := trimmed_tasks.filterMap
      (fun t => if t.id != "" then some t.id else none)
    let trimmed_group_ids := trimmed_projects.filterMap
      (fun p => if p.group_id != "" then some p.group_id else none)
    let trimmed_groups := scoped_groups.filter
      (fun g => trimmed_group_ids.contains g.id)
    { groups := trimmed_groups
      projects := trimmed_projects
      tasks := trimmed_tasks
      users := scoped_user_list scoped_users trimmed_projects trimmed_tasks
        trimmed_group_ids trimmed_project_ids
      comments := scoped_comment_list scoped_comments trimmed_task_ids
        trimmed_project_ids }

/-- The connection the claim requires of every returned user: member of
a returned project, participant of a returned task, or an access grant
meeting the returned groups or projects. -/
def user_connected (u : UserDoc) (ps : List ProjectDoc) (ts : List TaskDoc)
    (gs : List GroupDoc) : Prop :=
  (∃ p ∈ ps, p.owner_id = u.id ∨ u.id ∈ p.access_user_ids ∨
    u.id ∈ p.collaborator_ids) ∨
  (∃ t ∈ ts, t.assigned_by_id = u.id ∨ u.id ∈ t.assignee_ids ∨
    u.id ∈ t.collaborator_ids) ∨
  (∃ gid ∈ u.access.group_ids, ∃ g ∈ gs, g.id = gid) ∨
  (∃ pid ∈ u.access.project_ids, ∃ p ∈ ps, p.id = pid)

/-- C5: for a manager actor whose only access is a grant to the single
group `gid` (no owned groups or projects, no project membership, no task
involvement outside that group), the scope filter returns only projects
of that group, only groups with that id, only tasks of returned
projects, only comments attached to returned tasks or projects, and only
users connected to the returned entities. -/
theorem c5_scope_closure (current_user : UserDoc) (gid : String)
    (groups : List GroupDoc) (projects : List ProjectDoc) (tasks : List TaskDoc)
    (users : List UserDoc) (comments : List CommentDoc)
    (hG : current_user.access.group_ids = [gid])
    (hP : current_user.access.project_ids = [])
    (hgown : ∀ g ∈ groups, g.owner_id ≠ current_user.id)
    (hpown : ∀ p ∈ projects, p.owner_id ≠ current_user.id ∧
      current_user.id ∉ p.access_user_ids ∧ current_user.id ∉ p.collaborator_ids)
    (htask : ∀ t ∈ tasks, t.project_id ≠ "" →
      (t.assigned_by_id = current_user.id ∨ current_user.id ∈ t.assignee_ids ∨
       current_user.id ∈ t.collaborator_ids) →
      ∃ p ∈ projects, p.id = t.project_id ∧ p.group_id = gid)
    (hnodup : (projects.map ProjectDoc.id).Nodup)
    (hunodup : (users.map UserDoc.id).Nodup) :
    (∀ p ∈ (filter_manager_scope current_user groups projects tasks users comments).projects,
       p.group_id = gid) ∧
    (∀ g ∈ (filter_manager_scope current_user groups projects tasks users comments).groups,
       g.id = gid) ∧
    (∀ t ∈ (filter_manager_scope current_user groups projects tasks users comments).tasks,
       ∃ p ∈ (filter_manager_scope current_user groups projects tasks users comments).projects,
         p.id = t.project_id) ∧
    (∀ c ∈ (filter_manager_scope current_user groups projects tasks users comments).comments,
       (∃ t ∈ (filter_manager_scope current_user groups projects tasks users comments).tasks,
          t.id = c.task_id) ∨
       (∃ p ∈ (filter_manager_scope current_user groups projects tasks users comments).projects,
          p.id = c.project_id)) ∧
    (∀ u ∈ (filter_manager_scope current_user groups projects tasks users comments).users,
       user_connected u
         (filter_manager_scope current_user groups projects tasks users comments).projects
         (filter_manager_scope current_user groups projects tasks users comments).tasks
         (filter_manager_scope current_user groups projects tasks users comments).groups) := by
  -- step 1: the reachable group ids are exactly the granted one
  have hgids : ∀ x, x ∈ manager_group_ids current_user groups ↔ x = gid := by
    intro x
    unfold manager_group_ids
    rw [List.mem_append, mem_pyDedup, hG]
    constructor
    · rintro (hx | hx)
      · simpa using hx
      · obtain ⟨g, hg, rfl⟩ := List.mem_map.mp hx
        have := List.mem_filter.mp hg
        exact absurd (by simpa using this.2) (hgown g this.1)
    · rintro rfl
      exact Or.inl (by simp)
  -- step 2: every accessible project id belongs to a project of the group
  have haccess : ∀ pid,
      pid ∈ accessible_project_ids current_user
        (manager_group_ids current_user groups) projects tasks →
      ∃ p ∈ projects, p.id = pid ∧ p.group_id = gid := by
    intro pid hpid
    unfold accessible_project_ids at hpid
    rcases List.mem_append.mp hpid with hpid | hpid
    · obtain ⟨p, hpf, rfl⟩ := List.mem_map.mp hpid
      obtain ⟨hpmem, hpcond⟩ := List.mem_filter.mp hpf
      refine ⟨p, hpmem, rfl, ?_⟩
      simp only [Bool.or_eq_true, beq_iff_eq] at hpcond
      rcases hpcond with ((((hc | hc) | hc) | hc) | hc)
      · rw [List.elem_iff, mem_pyDedup, hP] at hc
        simp at hc
      · rw [List.elem_iff] at hc
        exact (hgids _).mp hc
      · exact absurd hc (hpown p hpmem).1
      · rw [List.elem_iff, mem_pyDedup] at hc
        exact absurd hc (hpown p hpmem).2.1
      · rw [List.elem_iff, mem_pyDedup] at hc
        exact absurd hc (hpown p hpmem).2.2
    · obtain ⟨t, htmem, htc⟩ := List.mem_filterMap.mp hpid
      by_cases hcond : (t.project_id != "" &&
          (t.assigned_by_id == current_user.id ||
           (pyDedup t.assignee_ids).contains current_user.id ||
           (pyDedup t.collaborator_ids).contains current_user.id)) = true
      · rw [if_pos hcond] at htc
        injection htc with htc
        simp only [Bool.and_eq_true, Bool.or_eq_true, bne_iff_ne, ne_eq,
          beq_iff_eq] at hcond
        obtain ⟨hne, hinv⟩ := hcond
        have hinv2 : t.assigned_by_id = current_user.id ∨
            current_user.id ∈ t.assignee_ids ∨
            current_user.id ∈ t.collaborator_ids := by
          rcases hinv with (h | h) | h
          · exact Or.inl h
          · rw [List.elem_iff, mem_pyDedup] at h
            exact Or.inr (Or.inl h)
          · rw [List.elem_iff, mem_pyDedup] at h
            exact Or.inr (Or.inr h)
        obtain ⟨p, hpm, hpi, hpg⟩ := htask t htmem hne hinv2
        exact ⟨p, hpm, by rw [hpi, htc], hpg⟩
      · rw [if_neg hcond] at htc
        exact absurd htc (by simp)
  -- project ids are injective on the project list
  have hinj : ∀ p ∈ projects, ∀ q ∈ projects, p.id = q.id → p = q := by
    intro p hp q hq hpq
    exact List.inj_on_of_nodup_map hnodup hp hq hpq
  refine ⟨?_, ?_, ?_, ?_, ?_⟩
  · intro p hp
    obtain ⟨hpmem, hpc⟩ := List.mem_filter.mp hp
    rw [List.elem_iff] at hpc
    obtain ⟨q, hqm, hqi, hqg⟩ := haccess _ hpc
    rw [← hinj q hqm p hpmem hqi]
    exact hqg
  · intro g hg
    obtain ⟨hgmem, hgc⟩ := List.mem_filter.mp hg
    rw [List.elem_iff, List.mem_append] at hgc
    rcases hgc with hgc | hgc
    · exact (hgids _).mp hgc
    · obtain ⟨p, hpf, hpe⟩ := List.mem_map.mp hgc
      obtain ⟨hpmem, hpc⟩ := List.mem_filter.mp hpf
      simp only [Bool.and_eq_true] at hpc
      rw [List.elem_iff] at hpc
      obtain ⟨q, hqm, hqi, hqg⟩ := haccess _ hpc.1
      rw [← hpe, ← hinj q hqm p hpmem hqi]
      exact hqg
  · intro t ht
    obtain ⟨htmem, htc⟩ := List.mem_filter.mp ht
    rw [List.elem_iff] at htc
    obtain ⟨q, hqm, hqi, hqg⟩ := haccess _ htc
    refine ⟨q, ?_, hqi⟩
    apply List.mem_filter.mpr
    refine ⟨hqm, ?_⟩
    rw [List.elem_iff, hqi]
    exact htc
  · intro c hc
    obtain ⟨hcmem, hcc⟩ := List.mem_filter.mp hc
    simp only [Bool.or_eq_true, Bool.and_eq_true] at hcc
    rcases hcc with ⟨hne, hcc⟩ | ⟨hne, hcc⟩
    · rw [List.elem_iff] at hcc
      obtain ⟨t, htm, hte⟩ := List.mem_filterMap.mp hcc
      left
      refine ⟨t, htm, ?_⟩
      by_cases hti : (t.id != "") = true
      · rw [if_pos hti] at hte
        injection hte
      · rw [if_neg hti] at hte
        exact absurd hte (by simp)
    · rw [List.elem_iff] at hcc
      obtain ⟨p, hpm, hpe⟩ := List.mem_filterMap.mp hcc
      right
      refine ⟨p, hpm, ?_⟩
      by_cases hpi : (p.id != "") = true
      · rw [if_pos hpi] at hpe
        injection hpe
      · rw [if_neg hpi] at hpe
        exact absurd hpe (by simp)
  · intro u hu
    obtain ⟨humem, huc⟩ := List.mem_filter.mp hu
    rw [List.elem_iff, List.mem_append, List.mem_append] at huc
    unfold user_connected
    rcases huc with (huc | huc) | huc
    · left
      obtain ⟨p, hpm, hpin⟩ := List.mem_bind.mp huc
      refine ⟨p, hpm, ?_⟩
      rcases List.mem_append.mp hpin with hin | hin
      · rcases List.mem_append.mp hin with hin | hin
        · by_cases ho : (p.owner_id != "") = true
          · rw [if_pos ho] at hin
            simp only [List.mem_singleton] at hin
            exact Or.inl hin.symm
          · rw [if_neg ho] at hin
            simp at hin
        · rw [mem_pyDedup] at hin
          exact Or.inr (Or.inl hin)
      · rw [mem_pyDedup] at hin
        exact Or.inr (Or.inr hin)
    · right; left
      obtain ⟨t, htm, htin⟩ := List.mem_bind.mp huc
      refine ⟨t, htm, ?_⟩
      rcases List.mem_append.mp htin with hin | hin
      · rcases List.mem_append.mp hin with hin | hin
        · by_cases ho : (t.assigned_by_id != "") = true
          · rw [if_pos ho] at hin
            simp only [List.mem_singleton] at hin
            exact Or.inl hin.symm
          · rw [if_neg ho] at hin
            simp at hin
        · rw [mem_pyDedup] at hin
          exact Or.inr (Or.inl hin)
      · rw [mem_pyDedup] at hin
        exact Or.inr (Or.inr hin)
    · obtain ⟨v, hvm, hve⟩ := List.mem_filterMap.mp huc
      split_ifs at hve with hvc
      · injection hve with hve
        have hveq : v = u := List.inj_on_of_nodup_map hunodup hvm humem hve
        subst hveq
        simp only [Bool.or_eq_true, List.any_eq_true] at hvc
        rcases hvc with ⟨g2, hg2m, hg2c⟩ | ⟨p2, hp2m, hp2c⟩
        · right; right; left
          rw [mem_pyDedup] at hg2m
          refine ⟨g2, hg2m, ?_⟩
          rw [List.elem_iff] at hg2c
          obtain ⟨g, hgm, hge⟩ := List.mem_map.mp hg2c
          exact ⟨g, hgm, hge⟩
        · right; right; right
          rw [mem_pyDedup] at hp2m
          refine ⟨p2, hp2m, ?_⟩
          rw [List.elem_iff] at hp2c
          obtain ⟨p, hpm, hpe⟩ := List.mem_map.mp hp2c
          exact ⟨p, hpm, hpe⟩

/-- The manager actor of the C5/C6 witnesses: granted only group g1. -/
def c5_manager : UserDoc :=
  { id := "m1", name := "Manager",
    access := { group_ids := ["g1"], project_ids := [] } }

def c5_groups : List GroupDoc :=
  [{ id := "g1", owner_id := "o9", name := "G1" }]

def c5_projects : List ProjectDoc :=
  [{ id := "p1", group_id := "g1", owner_id := "own1", access_user_ids := [],
     collaborator_ids := [], status := "ongoing", name := "P1",
     updated_at := some 10, created_at := some 5 }]

def c5_tasks : List TaskDoc :=
  [{ id := "t1", project_id := "p1", status := "in_progress", due_date := none,
     assigned_by_id := "own1", assignee_ids := ["u1"], collaborator_ids := [] }]

def c5_users : List UserDoc :=
  [c5_manager,
   { id := "u1", name := "U1", access := { group_ids := [], project_ids := [] } },
   { id := "own1", name := "Owner", access := { group_ids := [], project_ids := [] } }]

def c5_comments : List CommentDoc :=
  [{ id := "c1", task_id := "t1", project_id := "" },
   { id := "c2", task_id := "", project_id := "p9" }]

/-- C5 witness: the closure conclusions at the concrete one-group
scenario of the claim. -/
theorem c5_scope_closure_witness :
    (∀ p ∈ (filter_manager_scope c5_manager c5_groups c5_projects c5_tasks
        c5_users c5_comments).projects, p.group_id = "g1") ∧
    (∀ g ∈ (filter_manager_scope c5_manager c5_groups c5_projects c5_tasks
        c5_users c5_comments).groups, g.id = "g1") ∧
    (∀ t ∈ (filter_manager_scope c5_manager c5_groups c5_projects c5_tasks
        c5_users c5_comments).tasks,
       ∃ p ∈ (filter_manager_scope c5_manager c5_groups c5_projects c5_tasks
         c5_users c5_comments).projects, p.id = t.project_id) ∧
    (∀ c ∈ (filter_manager_scope c5_manager c5_groups c5_projects c5_tasks
        c5_users c5_comments).comments,
       (∃ t ∈ (filter_manager_scope c5_manager c5_groups c5_projects c5_tasks
          c5_users c5_comments).tasks, t.id = c.task_id) ∨
       (∃ p ∈ (filter_manager_scope c5_manager c5_groups c5_projects c5_tasks
          c5_users c5_comments).projects, p.id = c.project_id)) ∧
    (∀ u ∈ (filter_manager_scope c5_manager c5_groups c5_projects c5_tasks
        c5_users c5_comments).users,
       user_connected u
         (filter_manager_scope c5_manager c5_groups c5_projects c5_tasks
           c5_users c5_comments).projects
         (filter_manager_scope c5_manager c5_groups c5_projects c5_tasks
           c5_users c5_comments).tasks
         (filter_manager_scope c5_manager c5_groups c5_projects c5_tasks
           c5_users c5_comments).groups) :=
  c5_scope_closure c5_manager "g1" c5_groups c5_projects c5_tasks c5_users
    c5_comments rfl rfl (by decide) (by decide) (by decide) (by decide)
    (by decide)

/-! C6: the trim step. -/

instance : IsTotal ProjectDoc project_ge :=
  ⟨fun a b => le_total (project_sort_key b) (project_sort_key a)⟩

instance : IsTrans ProjectDoc project_ge :=
  ⟨fun _ _ _ h1 h2 => le_trans h2 h1⟩

theorem if_some_eq_some {c : Prop} [Decidable c] {x y : String} :
    (if c then some x else none) = some y ↔ c ∧ x = y := by
  split_ifs with h <;> simp [h]

theorem mem_truthy_ids {l : List ProjectDoc} {f : ProjectDoc → String} {x : String} :
    x ∈ l.filterMap (fun p => if f p != "" then some (f p) else none) ↔
      ∃ p ∈ l, f p ≠ "" ∧ f p = x := by
  rw [List.mem_filterMap]
  constructor
  · rintro ⟨p, hp, he⟩
    obtain ⟨hc, he⟩ := if_some_eq_some.mp he
    exact ⟨p, hp, by simpa using hc, he⟩
  · rintro ⟨p, hp, hc, he⟩
    exact ⟨p, hp, if_some_eq_some.mpr ⟨by simpa using hc, he⟩⟩

theorem mem_truthy_task_ids {l : List TaskDoc} {f : TaskDoc → String} {x : String} :
    x ∈ l.filterMap (fun t => if f t != "" then some (f t) else none) ↔
      ∃ t ∈ l, f t ≠ "" ∧ f t = x := by
  rw [List.mem_filterMap]
  constructor
  · rintro ⟨t, ht, he⟩
    obtain ⟨hc, he⟩ := if_some_eq_some.mp he
    exact ⟨t, ht, by simpa using hc, he⟩
  · rintro ⟨t, ht, hc, he⟩
    exact ⟨t, ht, if_some_eq_some.mpr ⟨by simpa using hc, he⟩⟩

/-- Membership characterization of the shared user-scoping rule. -/
theorem mem_scoped_user_list (user_list : List UserDoc) (ps : List ProjectDoc)
    (ts : List TaskDoc) (gpool ppool : List String) (u : UserDoc) :
    u ∈ scoped_user_list user_list ps ts gpool ppool ↔
      u ∈ user_list ∧
      ((∃ p ∈ ps, (p.owner_id ≠ "" ∧ p.owner_id = u.id) ∨
          u.id ∈ p.access_user_ids ∨ u.id ∈ p.collaborator_ids) ∨
       (∃ t ∈ ts, (t.assigned_by_id ≠ "" ∧ t.assigned_by_id = u.id) ∨
          u.id ∈ t.assignee_ids ∨ u.id ∈ t.collaborator_ids) ∨
       (∃ v ∈ user_list, v.id = u.id ∧
          ((∃ g2 ∈ v.access.group_ids, g2 ∈ gpool) ∨
           (∃ p2 ∈ v.access.project_ids, p2 ∈ ppool)))) := by
  unfold scoped_user_list
  rw [List.mem_filter]
  constructor
  · rintro ⟨hm, hc⟩
    refine ⟨hm, ?_⟩
    rw [List.elem_iff, List.mem_append, List.mem_append] at hc
    rcases hc with (hc | hc) | hc
    · left
      obtain ⟨p, hp, hin⟩ := List.mem_bind.mp hc
      refine ⟨p, hp, ?_⟩
      rcases List.mem_append.mp hin with hin | hin
      · rcases List.mem_append.mp hin with hin | hin
        · split_ifs at hin with ho
          · simp only [List.mem_singleton] at hin
            exact Or.inl ⟨by simpa using ho, hin.symm⟩
          · simp at hin
        · rw [mem_pyDedup] at hin
          exact Or.inr (Or.inl hin)
      · rw [mem_pyDedup] at hin
        exact Or.inr (Or.inr hin)
    · right; left
      obtain ⟨t, ht, hin⟩ := List.mem_bind.mp hc
      refine ⟨t, ht, ?_⟩
      rcases List.mem_append.mp hin with hin | hin
      · rcases List.mem_append.mp hin with hin | hin
        · split_ifs at hin with ho
          · simp only [List.mem_singleton] at hin
            exact Or.inl ⟨by simpa using ho, hin.symm⟩
          · simp at hin
        · rw [mem_pyDedup] at hin
          exact Or.inr (Or.inl hin)
      · rw [mem_pyDedup] at hin
        exact Or.inr (Or.inr hin)
    · right; right
      obtain ⟨v, hv, he⟩ := List.mem_filterMap.mp hc
      split_ifs at he with hvc
      · injection he with he
        refine ⟨v, hv, he, ?_⟩
        simp only [Bool.or_eq_true, List.any_eq_true] at hvc
        rcases hvc with ⟨g2, hg2, hg2c⟩ | ⟨p2, hp2, hp2c⟩
        · rw [mem_pyDedup] at hg2
          exact Or.inl ⟨g2, hg2, List.elem_iff.mp hg2c⟩
        · rw [mem_pyDedup] at hp2
          exact Or.inr ⟨p2, hp2, List.elem_iff.mp hp2c⟩
  · rintro ⟨hm, hc⟩
    refine ⟨hm, ?_⟩
    rw [List.elem_iff, List.mem_append, List.mem_append]
    rcases hc with ⟨p, hp, hin⟩ | ⟨t, ht, hin⟩ | ⟨v, hv, hid, hg⟩
    · left; left
      apply List.mem_bind.mpr
      refine ⟨p, hp, ?_⟩
      rcases hin with ⟨ho, he⟩ | hin | hin
      · apply List.mem_append.mpr; left
        apply List.mem_append.mpr; left
        rw [if_pos (by simpa using ho), he]
        exact List.mem_singleton.mpr rfl
      · apply List.mem_append.mpr; left
        apply List.mem_append.mpr; right
        rw [mem_pyDedup]; exact hin
      · apply List.mem_append.mpr; right
        rw [mem_pyDedup]; exact hin
    · left; right
      apply List.mem_bind.mpr
      refine ⟨t, ht, ?_⟩
      rcases hin with ⟨ho, he⟩ | hin | hin
      · apply List.mem_append.mpr; left
        apply List.mem_append.mpr; left
        rw [if_pos (by simpa using ho), he]
        exact List.mem_singleton.mpr rfl
      · apply List.mem_append.mpr; left
        apply List.mem_append.mpr; right
        rw [mem_pyDedup]; exact hin
      · apply List.mem_append.mpr; right
        rw [mem_pyDedup]; exact hin
    · right
      apply List.mem_filterMap.mpr
      refine ⟨v, hv, ?_⟩
      rw [if_pos, hid]
      simp only [Bool.or_eq_true, List.any_eq_true]
      rcases hg with ⟨g2, hg2, hg2p⟩ | ⟨p2, hp2, hp2p⟩
      · exact Or.inl ⟨g2, (mem_pyDedup _ _).mpr hg2, List.elem_iff.mpr hg2p⟩
      · exact Or.inr ⟨p2, (mem_pyDedup _ _).mpr hp2, List.elem_iff.mpr hp2p⟩

/-- The C6 property of the trim step (limit 5): the kept projects are
five, drawn from the scoped projects with every kept project ranking at
least as recent as every dropped one, and the trimmed tasks, groups,
comments and users are exactly the scoped entities reachable from the
kept projects. -/
def c6_trim_property (scoped_groups : List GroupDoc)
    (scoped_projects : List ProjectDoc) (scoped_tasks : List TaskDoc)
    (scoped_users : List UserDoc) (scoped_comments : List CommentDoc) : Prop :=
  let out := trim_manager_scope scoped_groups scoped_projects scoped_tasks
    scoped_users scoped_comments 5
  out.projects.length = 5 ∧
  (∃ rest, scoped_projects.Perm (out.projects ++ rest) ∧
    ∀ p ∈ out.projects, ∀ q ∈ rest,
      project_sort_key q ≤ project_sort_key p) ∧
  (∀ t, t ∈ out.tasks ↔ t ∈ scoped_tasks ∧
    ∃ p ∈ out.projects, p.id ≠ "" ∧ p.id = t.project_id) ∧
  (∀ g, g ∈ out.groups ↔ g ∈ scoped_groups ∧
    ∃ p ∈ out.projects, p.group_id ≠ "" ∧ p.group_id = g.id) ∧
  (∀ c, c ∈ out.comments ↔ c ∈ scoped_comments ∧
    ((c.task_id ≠ "" ∧ ∃ t ∈ out.tasks, t.id ≠ "" ∧ t.id = c.task_id) ∨
     (c.project_id ≠ "" ∧ ∃ p ∈ out.projects, p.id ≠ "" ∧ p.id = c.project_id))) ∧
  (∀ u, u ∈ out.users ↔ u ∈ scoped_users ∧
    ((∃ p ∈ out.projects, (p.owner_id ≠ "" ∧ p.owner_id = u.id) ∨
        u.id ∈ p.access_user_ids ∨ u.id ∈ p.collaborator_ids) ∨
     (∃ t ∈ out.tasks, (t.assigned_by_id ≠ "" ∧ t.assigned_by_id = u.id) ∨
        u.id ∈ t.assignee_ids ∨ u.id ∈ t.collaborator_ids) ∨
     (∃ v ∈ scoped_users, v.id = u.id ∧
        ((∃ g2 ∈ v.access.group_ids,
            ∃ p ∈ out.projects, p.group_id ≠ "" ∧ p.group_id = g2) ∨
         (∃ p2 ∈ v.access.project_ids,
            ∃ p ∈ out.projects, p.id ≠ "" ∧ p.id = p2)))))

/-- C6 (amended): for more than five scoped projects, the trim keeps
exactly five projects, each ranking at least as recent as every dropped
project under the code ranking (updated timestamp if present, else
created, else minimal - not the most recent of the two as claimed), and
recomputes tasks, groups, comments and users restricted to the kept
projects. -/
theorem c6_trim_amended (scoped_groups : List GroupDoc)
    (scoped_projects : List ProjectDoc) (scoped_tasks : List TaskDoc)
    (scoped_users : List UserDoc) (scoped_comments : List CommentDoc)
    (h5 : 5 < scoped_projects.length) :
    c6_trim_property scoped_groups scoped_projects scoped_tasks scoped_users
      scoped_comments := by
  have hne : ¬ (scoped_projects.isEmpty = true) := by
    intro h
    rw [List.isEmpty_iff.mp h] at h5
    simp at h5
  have hlen : (List.insertionSort project_ge scoped_projects).length =
      scoped_projects.length :=
    (List.perm_insertionSort project_ge scoped_projects).length_eq
  unfold c6_trim_property trim_manager_scope
  rw [if_neg hne]
  refine ⟨?_, ?_, ?_, ?_, ?_, ?_⟩
  · show ((List.insertionSort project_ge scoped_projects).take 5).length = 5
    rw [List.length_take, hlen]
    omega
  · refine ⟨(List.insertionSort project_ge scoped_projects).drop 5, ?_, ?_⟩
    · show scoped_projects.Perm
        ((List.insertionSort project_ge scoped_projects).take 5 ++
         (List.insertionSort project_ge scoped_projects).drop 5)
      rw [List.take_append_drop]
      exact (List.perm_insertionSort project_ge scoped_projects).symm
    · intro p hp q hq
      exact (List.sorted_insertionSort project_ge scoped_projects).rel_of_mem_take_of_mem_drop
        hp hq
  · intro t
    simp only [List.mem_filter, List.elem_iff, mem_truthy_ids]
  · intro g
    simp only [List.mem_filter, List.elem_iff, mem_truthy_ids]
  · intro c
    unfold scoped_comment_list
    rw [List.mem_filter]
    constructor
    · rintro ⟨hm, hc⟩
      refine ⟨hm, ?_⟩
      simp only [Bool.or_eq_true, Bool.and_eq_true] at hc
      rcases hc with ⟨h1, h2⟩ | ⟨h1, h2⟩
      · exact Or.inl ⟨by simpa using h1,
          mem_truthy_task_ids.mp (List.elem_iff.mp h2)⟩
      · exact Or.inr ⟨by simpa using h1,
          mem_truthy_ids.mp (List.elem_iff.mp h2)⟩
    · rintro ⟨hm, hc⟩
      refine ⟨hm, ?_⟩
      simp only [Bool.or_eq_true, Bool.and_eq_true]
      rcases hc with ⟨h1, h2⟩ | ⟨h1, h2⟩
      · exact Or.inl ⟨by simpa using h1,
          List.elem_iff.mpr (mem_truthy_task_ids.mpr h2)⟩
      · exact Or.inr ⟨by simpa using h1,
          List.elem_iff.mpr (mem_truthy_ids.mpr h2)⟩
  · intro u
    rw [mem_scoped_user_list]
    simp only [mem_truthy_ids]

def c6_p6 : ProjectDoc :=
  { id := "p6", group_id := "", owner_id := "", access_user_ids := [],
    collaborator_ids := [], status := "ongoing", name := "P6",
    updated_at := some 1, created_at := some 1000 }

/-- Six projects: five with only an updated timestamp (100..104) and one
whose created timestamp (1000) is the most recent of all but whose
updated timestamp (1) is the oldest. -/
def c6_projects : List ProjectDoc :=
  [{ id := "p1", group_id := "", owner_id := "", access_user_ids := [],
     collaborator_ids := [], status := "ongoing", name := "P1",
     updated_at := some 100, created_at := none },
   { id := "p2", group_id := "", owner_id := "", access_user_ids := [],
     collaborator_ids := [], status := "ongoing", name := "P2",
     updated_at := some 101, created_at := none },
   { id := "p3", group_id := "", owner_id := "", access_user_ids := [],
     collaborator_ids := [], status := "ongoing", name := "P3",
     updated_at := some 102, created_at := none },
   { id := "p4", group_id := "", owner_id := "", access_user_ids := [],
     collaborator_ids := [], status := "ongoing", name := "P4",
     updated_at := some 103, created_at := none },
   { id := "p5", group_id := "", owner_id := "", access_user_ids := [],
     collaborator_ids := [], status := "ongoing", name := "P5",
     updated_at := some 104, created_at := none },
   c6_p6]

/-- The ranking as the claim words it: the most recent of the updated
and created timestamps, missing timestamps sorting last. -/
def claim_project_sort_key (p : ProjectDoc) : WithBot Int :=
  max (p.updated_at.elim ⊥ (fun v => (v : WithBot Int)))
      (p.created_at.elim ⊥ (fun v => (v : WithBot Int)))

def claim_project_ge (a b : ProjectDoc) : Prop :=
  claim_project_sort_key b ≤ claim_project_sort_key a

instance claim_project_ge_dec : DecidableRel claim_project_ge := fun a b => by
  unfold claim_project_ge; infer_instance

/-- The five most-recently-updated projects under the claim ranking. -/
def claim_top_projects (projects : List ProjectDoc) (limit : Nat) :
    List ProjectDoc :=
  (List.insertionSort claim_project_ge projects).take limit

/-- C6 counterexample: project p6 (updated 1, created 1000) is among the
five most recent under the claim ranking (most recent of updated and
created), but the code ranks it by its updated timestamp alone and drops
it, so the trimmed view is not the claimed five most-recently-updated
projects. -/
theorem c6_trim_ranking_counterexample :
    c6_p6 ∈ claim_top_projects c6_projects 5 ∧
    c6_p6 ∉ (trim_manager_scope [] c6_projects [] [] [] 5).projects := by
  constructor
  · decide
  · decide

/-- C6 witness: the amended trim property at the six-project input. -/
theorem c6_trim_amended_witness :
    c6_trim_property [] c6_projects [] [] [] :=
  c6_trim_amended [] c6_projects [] [] [] (by decide)

/-! ## The filtered admin insight route (C2)

`get_filtered_admin_insights` (src/backend/app/routes/ai.py:556-626)
prepares entity lists and filters and then calls
`generate_admin_filter_insights`.  The service function declares five
positional parameters (src/backend/app/services/ai.py:1655-1661:
groups, projects, tasks, users, filters), but every call site in
routes/ai.py (:490, :539, :609, :618) passes six positional arguments,
appending a comments list.  Python checks the arity when binding
arguments, before the body runs, and raises a TypeError on mismatch;
the binding step is modelled here, the function body is never reached. -/

/-- The request filter payload (AdminInsightFilters, routes/ai.py:235). -/
structure FilterPayload where
  group_ids : List String
  project_ids : List String
  user_ids : List String
deriving DecidableEq

/-- A positional argument at the call sites. -/
inductive FilterArg where
  | groups_arg (gs : List GroupDoc)
  | projects_arg (ps : List ProjectDoc)
  | tasks_arg (ts : List TaskDoc)
  | users_arg (us : List UserDoc)
  | filters_arg (f : FilterPayload)
  | comments_arg (cs : List CommentDoc)
deriving DecidableEq

/-- The positional parameters of `generate_admin_filter_insights`
(src/backend/app/services/ai.py:1655-1661). -/
def generate_admin_filter_insights_params : List String :=
  ["groups", "projects", "tasks", "users", "filters"]

/-- A successfully bound call: the five parameters bound to arguments. -/
inductive BoundFilterCall where
  | mk (gs : List GroupDoc) (ps : List ProjectDoc) (ts : List TaskDoc)
      (us : List UserDoc) (f : FilterPayload)
deriving DecidableEq

/-- A raised Python TypeError: the function takes `expected` positional
arguments but `got` were given, or the arguments do not bind to the
declared parameters. -/
inductive PyCallError where
  | arity_mismatch (expected got : Nat)
  | binding_mismatch
deriving DecidableEq

/-- Python positional-argument binding for
`generate_admin_filter_insights`: a TypeError when the argument count
does not match the declared parameter count. -/
def invoke_generate_admin_filter_insights (args : List FilterArg) :
    Except PyCallError BoundFilterCall :=
  if args.length = generate_admin_filter_insights_params.length then
    match args with
    | [.groups_arg gs, .projects_arg ps, .tasks_arg ts, .users_arg us,
       .filters_arg f] => .ok (.mk gs ps ts us f)
    | _ => .error .binding_mismatch
  else
    .error (.arity_mismatch generate_admin_filter_insights_params.length
      args.length)

/-- Embedding of the route handler `get_filtered_admin_insights`
(src/backend/app/routes/ai.py:556-626): for a manager, scope the entity
lists, intersect the requested filters with the allowed ids, fall back
to the trimmed default view when the intersection is empty, then invoke
the service function; for any other allowed role, invoke it on the full
lists.  Both paths pass six positional arguments. -/
def get_filtered_admin_insights_route (current_user : UserDoc) (role : String)
    (filters : FilterPayload) (group_list : List GroupDoc)
    (project_list : List ProjectDoc) (task_list : List TaskDoc)
    (user_list : List UserDoc) (comment_list : List CommentDoc) :
    Except PyCallError BoundFilterCall :=
  if role == "manager" then
    let sc := filter_manager_scope current_user group_list project_list
      task_list user_list comment_list
    let allowed_group_ids := sc.groups.map (fun g => g.id)
    let allowed_project_ids := sc.projects.map (fun p => p.id)
    let allowed_user_ids := sc.users.map (fun u => u.id)
    let fp : FilterPayload :=
      { group_ids := filters.group_ids.filter
          (fun g => allowed_group_ids.contains g)
        project_ids := filters.project_ids.filter
          (fun p => allowed_project_ids.contains p)
        user_ids := filters.user_ids.filter
          (fun u => allowed_user_ids.contains u) }
    if fp.group_ids.isEmpty && fp.project_ids.isEmpty && fp.user_ids.isEmpty then
      let trimmed := trim_manager_scope sc.groups sc.projects
        sc.tasks sc.users sc.comments 5
      invoke_generate_admin_filter_insights
        [.groups_arg trimmed.groups, .projects_arg trimmed.projects,
         .tasks_arg trimmed.tasks, .users_arg trimmed.users,
         .filters_arg { group_ids := [], project_ids := [], user_ids := [] },
         .comments_arg trimmed.comments]
    else
      invoke_generate_admin_filter_insights
        [.groups_arg sc.groups, .projects_arg sc.projects,
         .tasks_arg sc.tasks, .users_arg sc.users,
         .filters_arg fp, .comments_arg sc.comments]
  else
    invoke_generate_admin_filter_insights
      [.groups_arg group_list, .projects_arg project_list,
       .tasks_arg task_list, .users_arg user_list,
       .filters_arg filters, .comments_arg comment_list]

/-- C2: for every actor role and every filter combination, the filtered
admin insight route raises a TypeError instead of returning a content
payload: all call sites pass six positional arguments to the
five-parameter `generate_admin_filter_insights`. -/
theorem c2_filtered_insights_route_raises (current_user : UserDoc)
    (role : String) (filters : FilterPayload) (group_list : List GroupDoc)
    (project_list : List ProjectDoc) (task_list : List TaskDoc)
    (user_list : List UserDoc) (comment_list : List CommentDoc) :
    get_filtered_admin_insights_route current_user role filters group_list
      project_list task_list user_list comment_list =
    Except.error (PyCallError.arity_mismatch 5 6) := by
  unfold get_filtered_admin_insights_route
  by_cases hr : (role == "manager") = true
  · rw [if_pos hr]
    dsimp only
    split_ifs with h2
    · rfl
    · rfl
  · rw [if_neg hr]
    rfl

end TMS
